import Mathlib

/-!
# Verification of the NEXUS smart-voice-assistant core

A shallow embedding of the repository's TypeScript components, together with
theorems settling the specification claims about them:

* `SpeechSynth` — the priority queue of `SpeechSynthesis.speak` / `processQueue`
  (`src/core/speechSynthesis.ts`).
* `DeviceCtl` — the mock device registry `DeviceManager` with its per-type
  command handlers (`src/deviceControl/deviceManager.ts`).
* `LangProc` — the regex-based intent/entity extractor `LanguageProcessing`
  (`src/features/performanceEnhancer.ts`), including a small backtracking
  regex interpreter reproducing the JavaScript matching semantics needed by
  the fixed pattern tables.
* `Config` — `ConfigManager.export` / `import` / `deepMerge` (`src/main.ts`).
* `Events` — the synchronous `EventEmitter` (`src/utils/eventEmitter.ts`).

JavaScript numbers are modelled as rationals, extended with a `NaN` point
where the code's `||` defaulting makes the distinction observable.  Strings
scanned by regexes are modelled as lists of code points (`List Nat`).
-/

namespace JsStr

/-- The code points of a string literal, the form in which the regex
interpreter consumes text (JS strings are sequences of code units; all
inputs relevant here are ASCII). -/
def chars (s : String) : List Nat :=
  s.data.map (fun c => c.toNat)

/-- ASCII lowercasing of one code point, the fragment of
`String.prototype.toLowerCase` exercised by the fixed pattern tables
(which are all ASCII). -/
def lowerCode (c : Nat) : Nat :=
  if 65 ≤ c ∧ c ≤ 90 then c + 32 else c

/-- Whitespace test for a code point: space, tab, newline, carriage return —
the fragment of the JS `\s` class reachable from the assistant's inputs. -/
def isWs (c : Nat) : Bool :=
  c = 32 ∨ c = 9 ∨ c = 10 ∨ c = 13

/-- JS word character (`\w`, used by the `\b` assertion):
`[A-Za-z0-9_]`. -/
def isWord (c : Nat) : Bool :=
  (48 ≤ c ∧ c ≤ 57) ∨ (65 ≤ c ∧ c ≤ 90) ∨ (97 ≤ c ∧ c ≤ 122) ∨ c = 95

/-- Decimal digit. -/
def isDigit (c : Nat) : Bool :=
  48 ≤ c ∧ c ≤ 57

/-- `String.prototype.trim` on code-point lists. -/
def trimL (cs : List Nat) : List Nat :=
  ((cs.dropWhile isWs).reverse.dropWhile isWs).reverse

/-- `toLowerCase` on code-point lists. -/
def lowerL (cs : List Nat) : List Nat :=
  cs.map lowerCode

end JsStr

/-- Exact rational arithmetic for the JS numbers computed by
`calculatePatternConfidence`: a plain numerator/denominator pair whose
operations are all structurally recursive, hence evaluable by the kernel
(`ℚ`'s normalizing operations are not kernel-reducible).  `toRat` gives the
denoted rational; every denominator constructed below is positive.
(IEEE-754 rounding of the source's doubles is far below any gap these
claims depend on and is not modelled.) -/
structure JsRat where
  num : Int
  den : Nat
deriving DecidableEq, Repr

namespace JsRat

/-- Embed a natural number. -/
def ofNat (n : Nat) : JsRat := ⟨n, 1⟩

/-- The rational a pair denotes. -/
def toRat (x : JsRat) : ℚ := (x.num : ℚ) / (x.den : ℚ)

/-- Multiplication. -/
def mul (a b : JsRat) : JsRat := ⟨a.num * b.num, a.den * b.den⟩

/-- Addition. -/
def add (a b : JsRat) : JsRat := ⟨a.num * b.den + b.num * a.den, a.den * b.den⟩

/-- Reciprocal (the sign moves to the numerator). -/
def inv (a : JsRat) : JsRat :=
  if a.num < 0 then ⟨-(a.den : Int), a.num.natAbs⟩ else ⟨(a.den : Int), a.num.natAbs⟩

/-- Division. -/
def div (a b : JsRat) : JsRat := a.mul b.inv

/-- `a < b`, by cross multiplication (denominators positive). -/
def blt (a b : JsRat) : Bool := a.num * (b.den : Int) < b.num * (a.den : Int)

/-- `a ≤ b`, by cross multiplication. -/
def ble (a b : JsRat) : Bool := a.num * (b.den : Int) ≤ b.num * (a.den : Int)

/-- `Math.min` on two numbers. -/
def minJ (a b : JsRat) : JsRat := if a.ble b then a else b

end JsRat

namespace SpeechSynth

/-- JS `a || b` on an optional string: `undefined` and the empty string are
falsy.  Mirrors `language || this.config.get('speechSynthesis.defaultLanguage',
'en-US')`; the configuration default is the literal `'en-US'`. -/
def jsOrStr (v : Option String) (d : String) : String :=
  match v with
  | none => d
  | some s => if s = "" then d else s

/-- JS `a || b` on a (non-NaN) number: `0` is falsy.
Mirrors `(item.priority || 1)` in `speak`. -/
def jsOrQ (v : ℚ) (d : ℚ) : ℚ :=
  if v = 0 then d else v

/-- `String.prototype.trim`, as used by `speak` on its `text` argument. -/
def jsTrim (s : String) : String :=
  String.mk (((s.data.dropWhile (fun c => JsStr.isWs c.toNat)).reverse.dropWhile
    (fun c => JsStr.isWs c.toNat)).reverse)

/-- A pending utterance, `SpeechRequest` from `speechSynthesis.ts`. -/
structure SpeechRequest where
  text : String
  language : String
  priority : ℚ
deriving DecidableEq, Repr

/-- The mutable state of the `SpeechSynthesis` wrapper that the queue
discipline touches: the pending queue and the single-flight guard. -/
structure SynthState where
  speechQueue : List SpeechRequest
  isPlaying : Bool
deriving DecidableEq, Repr

/-- The state after construction: empty queue, nothing playing. -/
def initialSynthState : SynthState :=
  { speechQueue := [], isPlaying := false }

/-- `Array.prototype.findIndex` (`-1` rendered as `none`). -/
def findIndexQ (p : SpeechRequest → Bool) : List SpeechRequest → Option Nat
  | [] => none
  | x :: xs => if p x then some 0 else (findIndexQ p xs).map (fun n => n + 1)

/-- `Array.prototype.splice(i, 0, r)`: insert `r` at position `i`. -/
def insertAt : Nat → SpeechRequest → List SpeechRequest → List SpeechRequest
  | _, r, [] => [r]
  | 0, r, xs => r :: xs
  | n + 1, r, x :: xs => x :: insertAt n r xs

/-- The queue-insertion step of `speak`:
`findIndex(item => (item.priority || 1) < priority)`, then `push` when no
index is found, `splice` otherwise. -/
def enqueue (q : List SpeechRequest) (request : SpeechRequest) : List SpeechRequest :=
  match findIndexQ (fun item => decide (jsOrQ item.priority 1 < request.priority)) q with
  | none => q ++ [request]
  | some i => insertAt i request q

/-- The synchronous head of `processQueue`: return unchanged when already
playing or the queue is empty; otherwise `shift` the head utterance and mark
playback in flight.  (The awaited host playback and the 100 ms drain delay
happen after this step and do not touch the queue order.) -/
def processQueue (st : SynthState) : SynthState :=
  if st.isPlaying ∨ st.speechQueue = [] then st
  else
    match st.speechQueue with
    | [] => st
    | _ :: rest => { speechQueue := rest, isPlaying := true }

/-- `speak(text, language?, priority = 1)`: reject blank text, build the
request (text trimmed, language defaulted through `||`), insert by priority,
then run `processQueue`. -/
def speak (st : SynthState) (text : String) (language : Option String) (priority : ℚ) :
    SynthState :=
  if jsTrim text = "" then st
  else
    let request : SpeechRequest :=
      { text := jsTrim text
        language := jsOrStr language "en-US"
        priority := priority }
    processQueue { st with speechQueue := enqueue st.speechQueue request }

/-- Queue ordering invariant claimed by the spec: priorities are
non-increasing from front to back. -/
def sortedDesc (q : List SpeechRequest) : Prop :=
  q.Pairwise (fun a b => b.priority ≤ a.priority)

end SpeechSynth

namespace DeviceCtl

/-- A JavaScript number as the device handlers observe it: a rational, or
`NaN` (the value of arithmetic on a missing property, and a falsy input to
`||`). -/
inductive JNum where
  | nan : JNum
  | num : ℚ → JNum
deriving DecidableEq, Repr

/-- JS falsiness of a number: `0` and `NaN` are falsy. -/
def JNum.isFalsy : JNum → Bool
  | .nan => true
  | .num q => q = 0

/-- JS `a || b` where `a` is a possibly-absent number
(`parameters?.brightness || 100` and the like). -/
def jsOrJ (v : Option JNum) (d : JNum) : JNum :=
  match v with
  | none => d
  | some x => if x.isFalsy then d else x

/-- Addition; `NaN` is absorbing, as in JS. -/
def JNum.add : JNum → JNum → JNum
  | .num a, .num b => .num (a + b)
  | _, _ => .nan

/-- Subtraction; `NaN` is absorbing. -/
def JNum.sub : JNum → JNum → JNum
  | .num a, .num b => .num (a - b)
  | _, _ => .nan

/-- `Math.max` on two arguments; `NaN` if either argument is `NaN`. -/
def jmax : JNum → JNum → JNum
  | .num a, .num b => .num (max a b)
  | _, _ => .nan

/-- `Math.min` on two arguments; `NaN` if either argument is `NaN`. -/
def jmin : JNum → JNum → JNum
  | .num a, .num b => .num (min a b)
  | _, _ => .nan

/-- A value stored in a device state's open `properties` map. -/
inductive PropVal where
  | num : JNum → PropVal
  | bool : Bool → PropVal
  | str : String → PropVal
deriving DecidableEq, Repr

/-- Association-list rendering of a JS object / `Map`: lookup by key. -/
def mapGet {α : Type} (m : List (String × α)) (k : String) : Option α :=
  match m with
  | [] => none
  | kv :: rest => if kv.1 = k then some kv.2 else mapGet rest k

/-- `m.set(k, v)` / `obj[k] = v`: overwrite the existing entry in place,
append otherwise (JS objects and `Map`s keep insertion order). -/
def mapSet {α : Type} (m : List (String × α)) (k : String) (v : α) :
    List (String × α) :=
  match m with
  | [] => [(k, v)]
  | kv :: rest => if kv.1 = k then (k, v) :: rest else kv :: mapSet rest k v

/-- `m.delete(k)`: drop the entry with key `k`. -/
def mapDel {α : Type} (m : List (String × α)) (k : String) : List (String × α) :=
  match m with
  | [] => []
  | kv :: rest => if kv.1 = k then rest else kv :: mapDel rest k

/-- Reading a property for arithmetic
(`deviceState.properties.brightness - 20` etc.): a stored number is read as
is, anything else — in particular a missing key, i.e. `undefined` — behaves
as `NaN` under the arithmetic that follows.  (The handlers only ever do
arithmetic on keys they themselves store numbers under.) -/
def readNum (props : List (String × PropVal)) (k : String) : JNum :=
  match mapGet props k with
  | some (.num n) => n
  | _ => .nan

/-- `Device` from `types/index.ts` (the `type` field keeps its source name). -/
structure Device where
  id : String
  name : String
  type : String
  status : String
deriving DecidableEq, Repr

/-- `DeviceState` from `deviceManager.ts`. -/
structure DeviceState where
  id : String
  status : String
  lastSeen : Nat
  properties : List (String × PropVal)
deriving DecidableEq, Repr

/-- The two maps owned by `DeviceManager`.  (The logger, config handle and
discovery timer do not influence the claims; the timer's ticks appear as
explicit `discoverDevices` steps.) -/
structure DeviceManager where
  devices : List (String × Device)
  deviceStates : List (String × DeviceState)
deriving DecidableEq, Repr

/-- The optional `parameters` object of `controlDevice`, restricted to the
numeric fields the handlers consult.  An absent object or field is `none`. -/
structure Params where
  brightness : Option JNum := none
  value : Option JNum := none
  temperature : Option JNum := none
deriving DecidableEq, Repr

/-- `getDefaultProperties` — type-specific seed properties. -/
def getDefaultProperties (deviceType : String) : List (String × PropVal) :=
  if deviceType = "smart_light" then
    [("brightness", .num (.num 100)), ("color", .str "white"), ("power", .bool true)]
  else if deviceType = "thermostat" then
    [("temperature", .num (.num 72)), ("mode", .str "auto"), ("target", .num (.num 72))]
  else if deviceType = "smart_tv" then
    [("power", .bool false), ("volume", .num (.num 50)), ("channel", .num (.num 1))]
  else if deviceType = "smart_speaker" then
    [("power", .bool true), ("volume", .num (.num 30)), ("playing", .bool false)]
  else []

/-- The fixed seed list of `initializeDefaultDevices`. -/
def defaultDevices : List Device :=
  [ { id := "living_room-light", name := "Living Room Light",
      type := "smart_light", status := "online" },
    { id := "bedroom-light", name := "Bedroom Light",
      type := "smart_light", status := "online" },
    { id := "kitchen-light", name := "Kitchen Light",
      type := "smart_light", status := "online" },
    { id := "main-thermostat", name := "Main Thermostat",
      type := "thermostat", status := "online" },
    { id := "living_room-tv", name := "Living Room TV",
      type := "smart_tv", status := "online" },
    { id := "kitchen-speaker", name := "Kitchen Speaker",
      type := "smart_speaker", status := "online" } ]

/-- `initializeDefaultDevices`, with `Date.now()` supplied as `now`. -/
def initializeDefaultDevices (now : Nat) : DeviceManager :=
  defaultDevices.foldl
    (fun dm device =>
      { devices := mapSet dm.devices device.id device
        deviceStates := mapSet dm.deviceStates device.id
          { id := device.id, status := "online", lastSeen := now
            properties := getDefaultProperties device.type } })
    { devices := [], deviceStates := [] }

/-- `controlLight`: the `smart_light` action handler.  Returns the mutated
state and the response's `success` flag (the human-readable message strings
are not modelled). -/
def controlLight (deviceState : DeviceState) (action : String) (parameters : Params) :
    DeviceState × Bool :=
  if action = "turn_on" then
    let props := mapSet deviceState.properties "power" (.bool true)
    let props := mapSet props "brightness" (.num (jsOrJ parameters.brightness (.num 100)))
    ({ deviceState with properties := props }, true)
  else if action = "turn_off" then
    ({ deviceState with
        properties := mapSet deviceState.properties "power" (.bool false) }, true)
  else if action = "dim" then
    let b := jmax (.num 10) ((readNum deviceState.properties "brightness").sub (.num 20))
    ({ deviceState with
        properties := mapSet deviceState.properties "brightness" (.num b) }, true)
  else if action = "brighten" then
    let b := jmin (.num 100) ((readNum deviceState.properties "brightness").add (.num 20))
    ({ deviceState with
        properties := mapSet deviceState.properties "brightness" (.num b) }, true)
  else if action = "set_brightness" then
    let brightness := jsOrJ parameters.value (.num 50)
    let b := jmax (.num 0) (jmin (.num 100) brightness)
    ({ deviceState with
        properties := mapSet deviceState.properties "brightness" (.num b) }, true)
  else (deviceState, false)

/-- `controlThermostat`: the `thermostat` action handler. -/
def controlThermostat (deviceState : DeviceState) (action : String) (parameters : Params) :
    DeviceState × Bool :=
  if action = "set_temperature" ∨ action = "set_value" then
    let temperature := jsOrJ parameters.value (jsOrJ parameters.temperature (.num 72))
    let t := jmax (.num 50) (jmin (.num 90) temperature)
    ({ deviceState with
        properties := mapSet deviceState.properties "target" (.num t) }, true)
  else if action = "increase" then
    let t := jmin (.num 90) ((readNum deviceState.properties "target").add (.num 2))
    ({ deviceState with
        properties := mapSet deviceState.properties "target" (.num t) }, true)
  else if action = "decrease" then
    let t := jmax (.num 50) ((readNum deviceState.properties "target").sub (.num 2))
    ({ deviceState with
        properties := mapSet deviceState.properties "target" (.num t) }, true)
  else (deviceState, false)

/-- `controlTV`: the `smart_tv` action handler. -/
def controlTV (deviceState : DeviceState) (action : String) (_parameters : Params) :
    DeviceState × Bool :=
  if action = "turn_on" then
    ({ deviceState with
        properties := mapSet deviceState.properties "power" (.bool true) }, true)
  else if action = "turn_off" then
    ({ deviceState with
        properties := mapSet deviceState.properties "power" (.bool false) }, true)
  else if action = "volume_up" ∨ action = "increase" then
    let v := jmin (.num 100) ((readNum deviceState.properties "volume").add (.num 5))
    ({ deviceState with
        properties := mapSet deviceState.properties "volume" (.num v) }, true)
  else if action = "volume_down" ∨ action = "decrease" then
    let v := jmax (.num 0) ((readNum deviceState.properties "volume").sub (.num 5))
    ({ deviceState with
        properties := mapSet deviceState.properties "volume" (.num v) }, true)
  else (deviceState, false)

/-- `controlSpeaker`: the `smart_speaker` action handler. -/
def controlSpeaker (deviceState : DeviceState) (action : String) :
    DeviceState × Bool :=
  if action = "start" ∨ action = "play" then
    ({ deviceState with
        properties := mapSet deviceState.properties "playing" (.bool true) }, true)
  else if action = "stop" ∨ action = "pause" then
    ({ deviceState with
        properties := mapSet deviceState.properties "playing" (.bool false) }, true)
  else if action = "volume_up" ∨ action = "increase" then
    let v := jmin (.num 100) ((readNum deviceState.properties "volume").add (.num 10))
    ({ deviceState with
        properties := mapSet deviceState.properties "volume" (.num v) }, true)
  else if action = "volume_down" ∨ action = "decrease" then
    let v := jmax (.num 0) ((readNum deviceState.properties "volume").sub (.num 10))
    ({ deviceState with
        properties := mapSet deviceState.properties "volume" (.num v) }, true)
  else (deviceState, false)

/-- `controlGenericDevice`: unknown device types; note that an unrecognized
action is reported as a success with no state change. -/
def controlGenericDevice (deviceState : DeviceState) (action : String) :
    DeviceState × Bool :=
  if action = "turn_on" then
    ({ deviceState with
        properties := mapSet deviceState.properties "power" (.bool true) }, true)
  else if action = "turn_off" then
    ({ deviceState with
        properties := mapSet deviceState.properties "power" (.bool false) }, true)
  else (deviceState, true)

/-- `executeDeviceCommand`: re-read the state, dispatch on the device type,
write the mutated state back (the source mutates the very object held by the
map, which the write-back renders explicitly). -/
def executeDeviceCommand (dm : DeviceManager) (device : Device) (action : String)
    (parameters : Params) : DeviceManager × Bool :=
  match mapGet dm.deviceStates device.id with
  | none => (dm, false)
  | some deviceState =>
    let r :=
      if device.type = "smart_light" then controlLight deviceState action parameters
      else if device.type = "thermostat" then controlThermostat deviceState action parameters
      else if device.type = "smart_tv" then controlTV deviceState action parameters
      else if device.type = "smart_speaker" then controlSpeaker deviceState action
      else controlGenericDevice deviceState action
    ({ dm with deviceStates := mapSet dm.deviceStates device.id r.1 }, r.2)

/-- `controlDevice(deviceId, action, parameters?)`: fail fast on an unknown
id or a non-online state, otherwise dispatch.  The `deviceControlled` event
emission and the log lines carry no state and are not modelled; the
surrounding `try`/`catch` makes the source total, as is this definition. -/
def controlDevice (dm : DeviceManager) (deviceId : String) (action : String)
    (parameters : Params) : DeviceManager × Bool :=
  match mapGet dm.devices deviceId with
  | none => (dm, false)
  | some device =>
    match mapGet dm.deviceStates deviceId with
    | none => (dm, false)
    | some deviceState =>
      if deviceState.status ≠ "online" then (dm, false)
      else executeDeviceCommand dm device action parameters

/-- One `discoverDevices` tick; `Math.random() > 0.1` per device is supplied
as the oracle `isOnline`. -/
def discoverDevices (dm : DeviceManager) (isOnline : String → Bool) (now : Nat) :
    DeviceManager :=
  { dm with
    deviceStates := dm.deviceStates.map (fun kv =>
      (kv.1,
        { kv.2 with
          status := if isOnline kv.1 then "online" else "offline"
          lastSeen := if isOnline kv.1 then now else kv.2.lastSeen })) }

/-- `addDevice`. -/
def addDevice (dm : DeviceManager) (device : Device) (now : Nat) : DeviceManager :=
  { devices := mapSet dm.devices device.id device
    deviceStates := mapSet dm.deviceStates device.id
      { id := device.id, status := "online", lastSeen := now
        properties := getDefaultProperties device.type } }

/-- `removeDevice`: delete from both maps when the id is registered; report
whether anything was removed. -/
def removeDevice (dm : DeviceManager) (deviceId : String) : DeviceManager × Bool :=
  match mapGet dm.devices deviceId with
  | some _ =>
    ({ devices := mapDel dm.devices deviceId
       deviceStates := mapDel dm.deviceStates deviceId }, true)
  | none => (dm, false)

/-- `destroy`: stop the timer and clear both maps. -/
def destroy (_dm : DeviceManager) : DeviceManager :=
  { devices := [], deviceStates := [] }

/-- One observable `DeviceManager` operation, for stating lifecycle
invariants. -/
inductive DMOp where
  | add : Device → Nat → DMOp
  | remove : String → DMOp
  | control : String → String → Params → DMOp
  | discover : (String → Bool) → Nat → DMOp
  | destroy : DMOp

/-- Apply one operation. -/
def applyOp (dm : DeviceManager) : DMOp → DeviceManager
  | .add d now => addDevice dm d now
  | .remove id => (removeDevice dm id).1
  | .control id action parameters => (controlDevice dm id action parameters).1
  | .discover isOnline now => discoverDevices dm isOnline now
  | .destroy => destroy dm

/-- The brightness a given device's state currently stores (`NaN` when the
device or the property is missing). -/
def brightnessOf (dm : DeviceManager) (id : String) : JNum :=
  match mapGet dm.deviceStates id with
  | some st => readNum st.properties "brightness"
  | none => .nan

/-- The thermostat target a given device's state currently stores. -/
def targetOf (dm : DeviceManager) (id : String) : JNum :=
  match mapGet dm.deviceStates id with
  | some st => readNum st.properties "target"
  | none => .nan

/-- The brightness of device `id` is a real number within `[0, 100]`. -/
def brightOK (dm : DeviceManager) (id : String) : Prop :=
  ∃ b : ℚ, brightnessOf dm id = JNum.num b ∧ 0 ≤ b ∧ b ≤ 100

/-- The target of device `id` is a real number within `[50, 90]`. -/
def targetOK (dm : DeviceManager) (id : String) : Prop :=
  ∃ t : ℚ, targetOf dm id = JNum.num t ∧ 50 ≤ t ∧ t ≤ 90

/-- A `turn_on` call keeps the light's brightness in bounds only when its
`brightness` parameter is absent, falsy, or itself within `[0, 100]`. -/
def turnOnParamOK (action : String) (parameters : Params) : Prop :=
  action = "turn_on" →
    match parameters.brightness with
    | some (JNum.num b) => b = 0 ∨ (0 ≤ b ∧ b ≤ 100)
    | _ => True

end DeviceCtl

namespace LangProc

open JsStr

/-- The fragment of JS regular expressions used by the fixed pattern tables
of `LanguageProcessing.initializePatterns`: literal runs, greedy
character-class repetitions (`\s+`, `\s*`, `.+`, `.*`, `\d+`), the word
boundary `\b`, alternation, concatenation and greedy option `(?:...)?`.
Capture groups do not influence `match[0]`/`match.index` and are dropped. -/
inductive Rx where
  | str : List Nat → Rx
  | cls : (Nat → Bool) → Nat → Rx
  | wb : Rx
  | alt : Rx → Rx → Rx
  | seq : Rx → Rx → Rx
  | opt : Rx → Rx

/-- Case-insensitive code-point comparison (`i` flag — every pattern in the
table carries it). -/
def lowEq (a b : Nat) : Bool :=
  lowerCode a == lowerCode b

/-- Match a literal run, case-insensitively, then continue with `k`.
`prev` is the code point immediately before the current position (for `\b`). -/
def matchStr (cs : List Nat) (s : List Nat) (prev : Option Nat)
    (k : List Nat → Option Nat → Option (List Nat)) : Option (List Nat) :=
  match cs, s with
  | [], _ => k s prev
  | _ :: _, [] => none
  | c :: cs, x :: xs => if lowEq c x then matchStr cs xs (some x) k else none

/-- Word-character test on an optional code point (text edges are
non-word). -/
def isWordO : Option Nat → Bool
  | some c => isWord c
  | none => false

/-- Length of the maximal prefix satisfying `p`. -/
def runLen (p : Nat → Bool) : List Nat → Nat
  | [] => 0
  | c :: cs => if p c then runLen p cs + 1 else 0

/-- Continue with `k` after consuming exactly `j` code points of `s`. -/
def attemptAt (s : List Nat) (prev : Option Nat)
    (k : List Nat → Option Nat → Option (List Nat)) (j : Nat) : Option (List Nat) :=
  k (s.drop j) (if j = 0 then prev else s[j - 1]?)

/-- Greedy repetition backtracking, structurally on the number of attempts
remaining: try consuming `j` code points, then `j - 1`, … down to `minC`. -/
def greedyDownAux (s : List Nat) (prev : Option Nat)
    (k : List Nat → Option Nat → Option (List Nat)) (j : Nat) : Nat → Option (List Nat)
  | 0 => none
  | cnt + 1 =>
    match attemptAt s prev k j with
    | some r => some r
    | none => greedyDownAux s prev k (j - 1) cnt

/-- Greedy repetition backtracking: try consuming `j` code points first,
then ever fewer, never fewer than `minC` (`j - minC + 1` attempts). -/
def greedyDown (s : List Nat) (prev : Option Nat)
    (k : List Nat → Option Nat → Option (List Nat)) (minC : Nat) (j : Nat) :
    Option (List Nat) :=
  greedyDownAux s prev k j (j - minC + 1)

/-- The backtracking matcher, in continuation style, reproducing JS
semantics: alternatives are tried left to right, repetitions longest first,
options with the branch present first; the first success wins.  The result
is the input remaining after the match. -/
def matchR : Rx → List Nat → Option Nat →
    (List Nat → Option Nat → Option (List Nat)) → Option (List Nat)
  | .str cs, s, prev, k => matchStr cs s prev k
  | .cls p minC, s, prev, k =>
    let m := runLen p s
    if m < minC then none else greedyDown s prev k minC m
  | .wb, s, prev, k => if isWordO prev != isWordO s.head? then k s prev else none
  | .alt a b, s, prev, k =>
    match matchR a s prev k with
    | some r => some r
    | none => matchR b s prev k
  | .seq a b, s, prev, k => matchR a s prev (fun s2 p2 => matchR b s2 p2 k)
  | .opt a, s, prev, k =>
    match matchR a s prev k with
    | some r => some r
    | none => k s prev

/-- Attempt a match anchored at `pos`; on success return the length of
`match[0]`. -/
def tryMatch (r : Rx) (full : List Nat) (pos : Nat) : Option Nat :=
  let sub := full.drop pos
  let prev := if pos = 0 then none else full[pos - 1]?
  match matchR r sub prev (fun rest _ => some rest) with
  | some rest => some (sub.length - rest.length)
  | none => none

/-- Scan candidate positions `pos, pos + 1, …`, structurally on the number
of positions remaining. -/
def searchAuxFuel (r : Rx) (full : List Nat) (pos : Nat) : Nat → Option (Nat × Nat)
  | 0 => none
  | fuel + 1 =>
    match tryMatch r full pos with
    | some len => some (pos, len)
    | none => searchAuxFuel r full (pos + 1) fuel

/-- Leftmost match at position `≥ pos`: `(match.index, match[0].length)`.
Positions `pos, …, full.length` are candidates (hence
`full.length + 1 - pos` attempts); a `pos` beyond the text finds nothing,
as `exec` does when `lastIndex` exceeds the length. -/
def searchAux (r : Rx) (full : List Nat) (pos : Nat) : Option (Nat × Nat) :=
  searchAuxFuel r full pos (full.length + 1 - pos)

/-- `string.match(re)` for a non-global regex: the first match. -/
def jsMatch (r : Rx) (full : List Nat) : Option (Nat × Nat) :=
  searchAux r full 0

/-- `re.test(string)`. -/
def jsTest (r : Rx) (full : List Nat) : Bool :=
  (jsMatch r full).isSome

/-- The `exec` loop over a global (`g`) regex: collect successive matches,
resuming at `lastIndex = index + length` (bumped by one on an empty match,
as JS does).  Fuel bounds the loop; `full.length + 1` steps always
suffice. -/
def execAllAux (r : Rx) (full : List Nat) (lastIndex : Nat) : Nat → List (Nat × Nat)
  | 0 => []
  | fuel + 1 =>
    match searchAux r full lastIndex with
    | none => []
    | some (i, len) =>
      (i, len) :: execAllAux r full (if len = 0 then i + 1 else i + len) fuel

/-- All matches of a global regex, in order. -/
def findAll (r : Rx) (full : List Nat) : List (Nat × Nat) :=
  execAllAux r full 0 (full.length + 1)

/-- Literal-run pattern from a string literal. -/
def rstr (s : String) : Rx :=
  .str (chars s)

/-- `a|b|c|...` — alternatives tried in the listed order. -/
def altL (r : Rx) (rs : List Rx) : Rx :=
  rs.foldl Rx.alt r

/-- Concatenation of a head pattern with a list of successors. -/
def seqL (r : Rx) (rs : List Rx) : Rx :=
  rs.foldl Rx.seq r

/-- `\s+`. -/
def wsPlus : Rx := .cls isWs 1

/-- `\s*`. -/
def wsStar : Rx := .cls isWs 0

/-- `.+` (any code point but a line terminator, one or more, greedy). -/
def dotPlus : Rx := .cls (fun c => !(c == 10 || c == 13)) 1

/-- `.*`. -/
def dotStar : Rx := .cls (fun c => !(c == 10 || c == 13)) 0

/-- `\d+`. -/
def digPlus : Rx := .cls isDigit 1

/-- `(?:the\s+)?`. -/
def optThe : Rx := .opt (.seq (rstr "the") wsPlus)

/-- `(?:'s|\s+is)` — the apostrophe is code point 39. -/
def aposS : Rx := .alt (.str (39 :: chars "s")) (.seq wsPlus (rstr "is"))

/-- The intent pattern table of `initializePatterns`, in object insertion
order. -/
def intentPatterns : List (String × List Rx) :=
  [ ("device_control",
     [ seqL (rstr "turn") [wsPlus, .alt (rstr "on") (rstr "off"), wsPlus, optThe, dotPlus],
       seqL (rstr "switch") [wsPlus, .alt (rstr "on") (rstr "off"), wsPlus, optThe, dotPlus],
       seqL (.alt (rstr "dim") (rstr "brighten")) [wsPlus, optThe, dotPlus],
       seqL (rstr "set") [wsPlus, optThe, dotPlus, wsPlus, rstr "to", wsPlus, dotPlus],
       seqL (.alt (rstr "start") (rstr "stop")) [wsPlus, optThe, dotPlus],
       seqL (.alt (rstr "increase") (rstr "decrease")) [wsPlus, optThe, dotPlus] ]),
    ("information_request",
     [ seqL (rstr "what") [aposS, wsPlus, optThe, dotPlus],
       seqL (rstr "how") [wsPlus, dotPlus],
       seqL (rstr "when") [wsPlus, dotPlus],
       seqL (rstr "where") [wsPlus, dotPlus],
       seqL (rstr "tell") [wsPlus, rstr "me", wsPlus, rstr "about", wsPlus, dotPlus],
       seqL (rstr "what") [wsPlus, rstr "time", wsPlus, rstr "is", wsPlus, rstr "it"],
       seqL (rstr "what") [aposS, wsPlus, rstr "the", wsPlus, rstr "weather"] ]),
    ("system_control",
     [ altL (rstr "stop") [rstr "pause", rstr "halt"],
       altL (rstr "resume") [rstr "continue"],
       altL (rstr "restart") [rstr "reboot"],
       altL (rstr "help") [rstr "assist"],
       seqL (rstr "volume") [wsPlus, .alt (rstr "up") (rstr "down")],
       seqL (rstr "repeat") [wsPlus, rstr "that"] ]),
    ("greeting",
     [ altL (rstr "hello")
         [rstr "hi", rstr "hey",
          seqL (rstr "good") [wsPlus, altL (rstr "morning") [rstr "afternoon", rstr "evening"]]] ]),
    ("goodbye",
     [ altL (rstr "goodbye")
         [rstr "bye", seqL (rstr "see") [wsPlus, rstr "you"], rstr "farewell"] ]) ]

/-- The entity pattern table of `initializePatterns`, in object insertion
order (each pattern carries the `g` and `i` flags in the source). -/
def entityPatterns : List (String × Rx) :=
  [ ("device",
     seqL .wb
       [ altL (rstr "light")
           [ rstr "lamp", rstr "thermostat", rstr "tv", rstr "television",
             rstr "music", rstr "speaker", rstr "fan", rstr "heater",
             seqL (rstr "air") [wsStar, rstr "conditioner"],
             seqL (rstr "coffee") [wsStar, rstr "maker"],
             rstr "vacuum", rstr "camera", rstr "lock", rstr "alarm" ],
         .wb ]),
    ("room",
     seqL .wb
       [ altL (seqL (rstr "living") [wsStar, rstr "room"])
           [ rstr "bedroom", rstr "kitchen", rstr "bathroom",
             seqL (rstr "dining") [wsStar, rstr "room"],
             rstr "office", rstr "garage", rstr "basement", rstr "attic",
             rstr "hallway", rstr "study" ],
         .wb ]),
    ("number",
     seqL .wb
       [ altL digPlus
           [ rstr "one", rstr "two", rstr "three", rstr "four", rstr "five",
             rstr "six", rstr "seven", rstr "eight", rstr "nine", rstr "ten",
             rstr "eleven", rstr "twelve", rstr "thirteen", rstr "fourteen",
             rstr "fifteen", rstr "sixteen", rstr "seventeen", rstr "eighteen",
             rstr "nineteen", rstr "twenty", rstr "thirty", rstr "forty",
             rstr "fifty", rstr "sixty", rstr "seventy", rstr "eighty",
             rstr "ninety", rstr "hundred" ],
         .wb ]),
    ("color",
     seqL .wb
       [ altL (rstr "red")
           [ rstr "blue", rstr "green", rstr "yellow", rstr "orange",
             rstr "purple", rstr "pink", rstr "white", rstr "black",
             rstr "gray", rstr "grey", rstr "brown" ],
         .wb ]),
    ("action",
     seqL .wb
       [ altL (rstr "on")
           [ rstr "off", rstr "up", rstr "down", rstr "increase", rstr "decrease",
             rstr "dim", rstr "brighten", rstr "start", rstr "stop",
             rstr "play", rstr "pause", rstr "resume" ],
         .wb ]),
    ("temperature",
     seqL .wb
       [ digPlus, wsStar,
         .alt (.seq (rstr "degree") (.opt (rstr "s"))) (.str [176]),
         wsStar,
         .opt (altL (rstr "fahrenheit") [rstr "celsius", rstr "f", rstr "c"]),
         .wb ]) ]

/-- One extracted entity (`Entity`); the source's `end` field is `endPos`
here (`end` is a Lean keyword), `value` is a code-point list. -/
structure Entity where
  type : String
  value : List Nat
  start : Nat
  endPos : Nat
  confidence : JsRat
deriving DecidableEq, Repr

/-- `calculatePatternConfidence`: coverage × 0.8, +0.1 when the match is
anchored at the start or preceded by whitespace, capped at 1. -/
def calculatePatternConfidence (matchIndex matchLen : Nat) (command : List Nat) : JsRat :=
  let coverage := JsRat.div (JsRat.ofNat matchLen) (JsRat.ofNat command.length)
  let confidence := coverage.mul ⟨4, 5⟩
  let confidence :=
    if matchIndex = 0 ∨
        (match command[matchIndex - 1]? with
         | some c => isWs c
         | none => false) = true
    then confidence.add ⟨1, 10⟩ else confidence
  confidence.minJ (JsRat.ofNat 1)

/-- The running best match of `extractIntent` (its `entities` field is
always the empty list and is omitted). -/
structure IntentRes where
  name : String
  confidence : JsRat
deriving DecidableEq, Repr

/-- `extractIntent`: scan every pattern of every intent, keep the strictly
best confidence; ties keep the earlier find; nothing matched means
`unknown` at confidence 0. -/
def extractIntent (command : List Nat) : IntentRes :=
  intentPatterns.foldl
    (fun best ip =>
      ip.2.foldl
        (fun best pattern =>
          match jsMatch pattern command with
          | some il =>
            let confidence := calculatePatternConfidence il.1 il.2 command
            if best.confidence.blt confidence then
              { name := ip.1, confidence := confidence }
            else best
          | none => best)
        best)
    { name := "unknown", confidence := JsRat.ofNat 0 }

/-- The number-word lookup table of `wordToNumber`. -/
def numberMap : List (List Nat × Nat) :=
  [ (chars "zero", 0), (chars "one", 1), (chars "two", 2), (chars "three", 3),
    (chars "four", 4), (chars "five", 5), (chars "six", 6), (chars "seven", 7),
    (chars "eight", 8), (chars "nine", 9), (chars "ten", 10),
    (chars "eleven", 11), (chars "twelve", 12), (chars "thirteen", 13),
    (chars "fourteen", 14), (chars "fifteen", 15), (chars "sixteen", 16),
    (chars "seventeen", 17), (chars "eighteen", 18), (chars "nineteen", 19),
    (chars "twenty", 20), (chars "thirty", 30), (chars "forty", 40),
    (chars "fifty", 50), (chars "sixty", 60), (chars "seventy", 70),
    (chars "eighty", 80), (chars "ninety", 90), (chars "hundred", 100) ]

/-- Lookup in the number-word table. -/
def lookupNum : List (List Nat × Nat) → List Nat → Option Nat
  | [], _ => none
  | kv :: rest, w => if kv.1 = w then some kv.2 else lookupNum rest w

/-- Value of a run of decimal digits. -/
def digitsVal (ds : List Nat) : Nat :=
  ds.foldl (fun acc d => acc * 10 + (d - 48)) 0

/-- `parseInt` restricted to the shapes `wordToNumber` feeds it (an already
trimmed lowercase word): the value of the leading digit run, `NaN` (`none`)
when the word does not start with a digit. -/
def parseIntJs (cs : List Nat) : Option Nat :=
  match cs with
  | c :: _ => if isDigit c then some (digitsVal (cs.takeWhile isDigit)) else none
  | [] => none

/-- `wordToNumber`: `numberMap[word] || parseInt(word) || 0` (so the map's
`zero` entry and a parsed `0` both fall through to the final `0`). -/
def wordToNumber (word : List Nat) : Nat :=
  let fallback := (parseIntJs word).getD 0
  match lookupNum numberMap word with
  | some v => if v = 0 then fallback else v
  | none => fallback

/-- Decimal digits, structurally on a fuel bounding the digit count. -/
def natToCharsAux : Nat → Nat → List Nat
  | 0, _ => []
  | fuel + 1, n =>
    if n < 10 then [48 + n] else natToCharsAux fuel (n / 10) ++ [48 + n % 10]

/-- Decimal digits of a natural number (for `toString`); `n + 1` fuel always
suffices. -/
def natToChars (n : Nat) : List Nat :=
  natToCharsAux (n + 1) n

/-- Helper for `rwsU`: `inWs` records whether the previous code point was
part of a whitespace run already replaced. -/
def rwsUAux (inWs : Bool) : List Nat → List Nat
  | [] => []
  | c :: cs =>
    if isWs c then
      if inWs then rwsUAux true cs else 95 :: rwsUAux true cs
    else c :: rwsUAux false cs

/-- `value.replace(/\s+/g, '_')`: each maximal whitespace run becomes one
underscore (code point 95). -/
def rwsU (cs : List Nat) : List Nat :=
  rwsUAux false cs

/-- `normalizeEntityValue`: lowercase + trim, then per-type normalization
(number words to digits, spaces to underscores for devices and rooms). -/
def normalizeEntityValue (value : List Nat) (entityType : String) : List Nat :=
  let normalized := trimL (lowerL value)
  if entityType = "number" then natToChars (wordToNumber normalized)
  else if entityType = "device" then rwsU normalized
  else if entityType = "room" then rwsU normalized
  else normalized

/-- `extractEntities`: for each entity type in table order, every match of
its global regex over the original text, at fixed confidence 0.9. -/
def extractEntities (text : List Nat) : List Entity :=
  entityPatterns.foldl
    (fun acc tp =>
      acc ++ (findAll tp.2 text).map (fun il =>
        { type := tp.1
          value := normalizeEntityValue ((text.drop il.1).take il.2) tp.1
          start := il.1
          endPos := il.1 + il.2
          confidence := ⟨9, 10⟩ }))
    []

/-- Render a code-point list back into a `String` (for the pass-through
branch of `determineDeviceAction`). -/
def codesToString (cs : List Nat) : String :=
  String.mk (cs.map Char.ofNat)

/-- `determineDeviceAction`: map the first `action` entity through the fixed
lookup, else fall back to keyword regex scans, else `"control"`. -/
def determineDeviceAction (entities : List Entity) (command : List Nat) : String :=
  match entities.find? (fun e => e.type == "action") with
  | some actionEntity =>
    if actionEntity.value = chars "on" then "turn_on"
    else if actionEntity.value = chars "off" then "turn_off"
    else if actionEntity.value = chars "up" ∨ actionEntity.value = chars "increase" then
      "increase"
    else if actionEntity.value = chars "down" ∨ actionEntity.value = chars "decrease" then
      "decrease"
    else if actionEntity.value = chars "dim" then "dim"
    else if actionEntity.value = chars "brighten" then "brighten"
    else if actionEntity.value = chars "start" ∨ actionEntity.value = chars "play" then
      "start"
    else if actionEntity.value = chars "stop" ∨ actionEntity.value = chars "pause" then
      "stop"
    else codesToString actionEntity.value
  | none =>
    if jsTest (.alt (seqL (rstr "turn") [wsPlus, rstr "on"])
                   (seqL (rstr "switch") [wsPlus, rstr "on"])) command then "turn_on"
    else if jsTest (.alt (seqL (rstr "turn") [wsPlus, rstr "off"])
                        (seqL (rstr "switch") [wsPlus, rstr "off"])) command then "turn_off"
    else if jsTest (rstr "dim") command then "dim"
    else if jsTest (rstr "brighten") command then "brighten"
    else if jsTest (.alt (rstr "start") (rstr "play")) command then "start"
    else if jsTest (.alt (rstr "stop") (rstr "pause")) command then "stop"
    else if jsTest (seqL (rstr "set") [dotStar, rstr "to"]) command then "set_value"
    else "control"

/-- `determineSystemAction`: keyword scans over the command. -/
def determineSystemAction (command : List Nat) : String :=
  if jsTest (altL (rstr "stop") [rstr "pause", rstr "halt"]) command then "stop"
  else if jsTest (altL (rstr "resume") [rstr "continue"]) command then "resume"
  else if jsTest (altL (rstr "restart") [rstr "reboot"]) command then "restart"
  else if jsTest (altL (rstr "help") [rstr "assist"]) command then "help"
  else if jsTest (seqL (rstr "volume") [wsPlus, rstr "up"]) command then "volume_up"
  else if jsTest (seqL (rstr "volume") [wsPlus, rstr "down"]) command then "volume_down"
  else if jsTest (rstr "repeat") command then "repeat"
  else "system_control"

/-- `determineAction`: dispatch on the intent name. -/
def determineAction (intentName : String) (entities : List Entity) (command : List Nat) :
    String :=
  if intentName = "device_control" then determineDeviceAction entities command
  else if intentName = "information_request" then "get_information"
  else if intentName = "system_control" then determineSystemAction command
  else if intentName = "greeting" then "greet"
  else if intentName = "goodbye" then "farewell"
  else "unknown"

/-- `ProcessingResult` (the original text as a code-point list). -/
structure ProcessingResult where
  intent : String
  action : String
  entities : List Entity
  confidence : JsRat
  originalText : List Nat
deriving DecidableEq, Repr

/-- `processCommand`: normalize, extract the intent over the normalized
text, the entities over the original text, then the action. -/
def processCommand (command : List Nat) : ProcessingResult :=
  let normalizedCommand := trimL (lowerL command)
  let intent := extractIntent normalizedCommand
  let entities := extractEntities command
  let action := determineAction intent.name entities normalizedCommand
  { intent := intent.name
    action := action
    entities := entities
    confidence := intent.confidence
    originalText := command }

end LangProc

namespace Config

/-- The non-finite JS numbers: `NaN`, `Infinity`, `-Infinity`.
`loadFromEnvironment` stores `parseFloat` of raw environment strings
(`MIN_CONFIDENCE`, `SPEECH_RATE`, …), which is `NaN` for a malformed
value, and the public `set` accepts any number — so the configuration can
hold them, and `JSON.stringify` serializes each of them as `null`. -/
inductive NonFinite where
  | nan : NonFinite
  | inf : NonFinite
  | negInf : NonFinite

/-- A configuration value (`this.config` of `ConfigManager`): everything
`JSON.parse` can produce from an exported string, plus the non-finite
numbers the program itself can store. -/
inductive JValue where
  | null : JValue
  | bool : Bool → JValue
  | num : ℚ → JValue
  | str : String → JValue
  | arr : List JValue → JValue
  | obj : List (String × JValue) → JValue
  | nonfinite : NonFinite → JValue

/-- Key lists without duplicates (JS objects can never hold two own
properties with the same key). -/
def keyNodup : List String → Bool
  | [] => true
  | k :: ks => (!(ks.contains k)) && keyNodup ks

mutual

/-- Well-formedness of a value as a JSON-faithful configuration: every
object level has pairwise distinct keys and every stored number is finite
(a non-finite number does not survive `JSON.stringify`). -/
def wfJ : JValue → Bool
  | .obj fields => keyNodup (fields.map Prod.fst) && wfFields fields
  | .arr xs => wfArr xs
  | .nonfinite _ => false
  | _ => true

/-- Well-formedness of an object's field list. -/
def wfFields : List (String × JValue) → Bool
  | [] => true
  | kv :: rest => wfJ kv.2 && wfFields rest

/-- Well-formedness of an array's element list. -/
def wfArr : List JValue → Bool
  | [] => true
  | x :: xs => wfJ x && wfArr xs

end

mutual

/-- The value the exported string denotes: `JSON.parse` applied to
`JSON.stringify(v, null, 2)`.  Stringification is the identity on JSON-safe
values but renders every non-finite number as `null`, recursively through
arrays and objects. -/
def jsonStringifyParse : JValue → JValue
  | .nonfinite _ => .null
  | .arr xs => .arr (jspArr xs)
  | .obj fs => .obj (jspFields fs)
  | .null => .null
  | .bool b => .bool b
  | .num q => .num q
  | .str s => .str s

/-- `jsonStringifyParse` over an array's elements. -/
def jspArr : List JValue → List JValue
  | [] => []
  | x :: xs => jsonStringifyParse x :: jspArr xs

/-- `jsonStringifyParse` over an object's fields. -/
def jspFields : List (String × JValue) → List (String × JValue)
  | [] => []
  | kv :: rest => (kv.1, jsonStringifyParse kv.2) :: jspFields rest

end

/-- The `for (const key in source)` loop of `deepMerge`: `target` is the
original target object's fields (the loop reads `target[key]`, not the
accumulating result), `result` starts as the shallow copy `{...target}`.
A source value that is a non-null non-array object recurses into
`deepMerge(target[key] || {}, source[key])`; anything else is assigned
wholesale.  (`{...x}` of a primitive contributes no keys, hence the `[]`
for a non-object `target[key]`.) -/
def dmGo (target result : List (String × JValue)) :
    List (String × JValue) → List (String × JValue)
  | [] => result
  | (k, v) :: rest =>
    match v with
    | JValue.obj vfs =>
      let tsub :=
        match DeviceCtl.mapGet target k with
        | some (JValue.obj tfs) => tfs
        | _ => []
      dmGo target (DeviceCtl.mapSet result k (JValue.obj (dmGo tsub tsub vfs))) rest
    | _ => dmGo target (DeviceCtl.mapSet result k v) rest
termination_by sfs => sizeOf sfs
decreasing_by
  · simp only [List.cons.sizeOf_spec, Prod.mk.sizeOf_spec, JValue.obj.sizeOf_spec]
    omega
  · simp only [List.cons.sizeOf_spec]
    omega
  · simp only [List.cons.sizeOf_spec]
    omega

/-- The value one loop iteration of `deepMerge` assigns for a source entry
`k := v` (the recursive merge for object values, `v` itself otherwise). -/
def dmVal (target : List (String × JValue)) (k : String) : JValue → JValue
  | JValue.obj vfs =>
    JValue.obj (dmGo
      (match DeviceCtl.mapGet target k with
        | some (JValue.obj tfs) => tfs
        | _ => [])
      (match DeviceCtl.mapGet target k with
        | some (JValue.obj tfs) => tfs
        | _ => [])
      vfs)
  | v => v

/-- `deepMerge(target, source)`.  `update` only ever calls it with two
objects; for a non-object source the `for…in` loop runs zero iterations
(string sources, which would enumerate index keys, are unreachable from
`import` because an exported configuration always parses to an object) and
the result is the shallow copy `{...target}`. -/
def deepMerge (target source : JValue) : JValue :=
  let tfs :=
    match target with
    | JValue.obj t => t
    | _ => []
  match source with
  | JValue.obj sfs => JValue.obj (dmGo tfs tfs sfs)
  | _ => JValue.obj tfs

/-- `export()` is `JSON.stringify(this.config, null, 2)`.  Serialization is
modelled at the level of the JSON value the exported string denotes:
`jsonStringifyParse` — the identity on JSON-safe values, with every
non-finite number rendered as `null`, exactly as `JSON.stringify` emits
them. -/
def exportConfig (config : JValue) : JValue :=
  jsonStringifyParse config

/-- `import(configJson)`.  `JSON.parse` is a host primitive; its outcome
arrives as `parsed` (`none` = syntax error).  On failure the method throws
`'Invalid configuration JSON'` before touching `this.config`; on success it
runs `update`, i.e. `this.config = this.deepMerge(this.config, imported)`.
The returned value is the configuration after the call. -/
def importConfig (config : JValue) (parsed : Option JValue) : Except String JValue :=
  match parsed with
  | none => Except.error "Invalid configuration JSON"
  | some imported => Except.ok (deepMerge config imported)

/-- The `defaultConfig` object of `ConfigManager` (the state after
construction with no initial config and no environment overrides). -/
def defaultConfig : JValue :=
  JValue.obj
    [ ("speechRecognition", JValue.obj
        [ ("continuous", .bool true), ("interimResults", .bool false),
          ("language", .str "en-US"), ("maxAlternatives", .num 1),
          ("autoRestart", .bool true) ]),
      ("speechSynthesis", JValue.obj
        [ ("defaultLanguage", .str "en-US"), ("rate", .num 1),
          ("pitch", .num 1), ("volume", .num 1) ]),
      ("deviceManager", JValue.obj
        [ ("discoveryInterval", .num 30000), ("connectionTimeout", .num 5000),
          ("retryAttempts", .num 3) ]),
      ("minConfidence", .num (7 / 10)),
      ("logLevel", .str "INFO") ]

/-- The field list of the configuration right after `new ConfigManager()`
in an environment where `MIN_CONFIDENCE` is set but malformed:
`loadFromEnvironment` runs `this.set('minConfidence',
parseFloat(env.MIN_CONFIDENCE))`, storing `NaN` over the default — a
reachable state holding a non-finite number. -/
def nanEnvFields : List (String × JValue) :=
  [ ("speechRecognition", JValue.obj
      [ ("continuous", .bool true), ("interimResults", .bool false),
        ("language", .str "en-US"), ("maxAlternatives", .num 1),
        ("autoRestart", .bool true) ]),
    ("speechSynthesis", JValue.obj
      [ ("defaultLanguage", .str "en-US"), ("rate", .num 1),
        ("pitch", .num 1), ("volume", .num 1) ]),
    ("deviceManager", JValue.obj
      [ ("discoveryInterval", .num 30000), ("connectionTimeout", .num 5000),
        ("retryAttempts", .num 3) ]),
    ("minConfidence", .nonfinite NonFinite.nan),
    ("logLevel", .str "INFO") ]

/-- The reachable `NaN`-holding configuration state itself. -/
def nanEnvConfig : JValue :=
  JValue.obj nanEnvFields

end Config

namespace Events

/-- A registered listener over a world `σ` (the shared mutable state its
side effects touch, including anything it appends to for observation): it
returns the world after running, or `Except.error` when it throws — the
payload carries the world as mutated up to the throw, since a JS exception
rolls nothing back. -/
def Callback (σ : Type) := σ → Except (String × σ) σ

/-- The `events` map of `EventEmitter`. -/
structure EventEmitter (σ : Type) where
  events : List (String × List (Callback σ))

/-- A fresh emitter. -/
def emptyEmitter {σ : Type} : EventEmitter σ :=
  ⟨[]⟩

/-- `on(event, callback)`: create the entry on first use, then `push`
(`on` is a Lean keyword, hence the name `onEvent`). -/
def onEvent {σ : Type} (em : EventEmitter σ) (event : String) (callback : Callback σ) :
    EventEmitter σ :=
  match DeviceCtl.mapGet em.events event with
  | none => ⟨DeviceCtl.mapSet em.events event [callback]⟩
  | some callbacks => ⟨DeviceCtl.mapSet em.events event (callbacks ++ [callback])⟩

/-- The `callbacks.forEach` loop of `emit`: run each callback once, in
order; the `try`/`catch` turns a throw into a logged message and the loop
continues with the world as the thrower left it. -/
def runCallbacks {σ : Type} : List (Callback σ) → σ → σ
  | [], s => s
  | cb :: rest, s =>
    match cb s with
    | Except.ok s2 => runCallbacks rest s2
    | Except.error e => runCallbacks rest e.2

/-- `emit(event, data)`: look the listener list up and run it; no listeners
means nothing happens.  The function is total: no exception escapes. -/
def emit {σ : Type} (em : EventEmitter σ) (event : String) (data : σ) : σ :=
  match DeviceCtl.mapGet em.events event with
  | none => data
  | some callbacks => runCallbacks callbacks data

/-- An instrumented listener over the world `List Nat`: records its index
`i` on invocation, then throws when `fails` says so. -/
def tracer (i : Nat) (fails : Bool) : Callback (List Nat) :=
  fun trace =>
    if fails then Except.error ("listener error", trace ++ [i])
    else Except.ok (trace ++ [i])

/-- Register `tracer 0 flags[0], tracer 1 flags[1], …` in order on one
event. -/
def registerTracers (flags : List Bool) (event : String) : EventEmitter (List Nat) :=
  ((List.range flags.length).zip flags).foldl
    (fun em p => onEvent em event (tracer p.1 p.2)) emptyEmitter

end Events

namespace DeviceCtl

theorem mapGet_mapSet_self {α : Type} (m : List (String × α)) (k : String) (v : α) :
    mapGet (mapSet m k v) k = some v := by
  induction m with
  | nil => simp [mapGet, mapSet]
  | cons kv rest ih =>
    by_cases h : kv.1 = k
    · simp [mapGet, mapSet, h]
    · simp [mapGet, mapSet, h, ih]

theorem mapGet_mapSet_ne {α : Type} (m : List (String × α)) {k k' : String} (v : α)
    (h : k' ≠ k) : mapGet (mapSet m k v) k' = mapGet m k' := by
  induction m with
  | nil => simp [mapGet, mapSet, Ne.symm h]
  | cons kv rest ih =>
    by_cases hk : kv.1 = k
    · subst hk
      simp [mapGet, mapSet, Ne.symm h]
    · by_cases hk' : kv.1 = k'
      · simp [mapGet, mapSet, hk, hk', h]
      · simp [mapGet, mapSet, hk, hk', ih]

theorem mapSet_keys_congr {α β : Type} (m1 : List (String × α)) (m2 : List (String × β))
    (k : String) (v1 : α) (v2 : β) (h : m1.map Prod.fst = m2.map Prod.fst) :
    (mapSet m1 k v1).map Prod.fst = (mapSet m2 k v2).map Prod.fst := by
  induction m1 generalizing m2 with
  | nil =>
    cases m2 with
    | nil => simp [mapSet]
    | cons b t2 => simp at h
  | cons a t1 ih =>
    cases m2 with
    | nil => simp at h
    | cons b t2 =>
      simp only [List.map_cons, List.cons.injEq] at h
      by_cases hk : a.1 = k
      · simp [mapSet, hk, h.1 ▸ hk, h.1, h.2]
      · have hbk : ¬ b.1 = k := h.1 ▸ hk
        simp only [mapSet, if_neg hk, if_neg hbk, List.map_cons, h.1]
        exact congrArg _ (ih t2 h.2)

theorem mapDel_keys_congr {α β : Type} (m1 : List (String × α)) (m2 : List (String × β))
    (k : String) (h : m1.map Prod.fst = m2.map Prod.fst) :
    (mapDel m1 k).map Prod.fst = (mapDel m2 k).map Prod.fst := by
  induction m1 generalizing m2 with
  | nil =>
    cases m2 with
    | nil => simp [mapDel]
    | cons b t2 => simp at h
  | cons a t1 ih =>
    cases m2 with
    | nil => simp at h
    | cons b t2 =>
      simp only [List.map_cons, List.cons.injEq] at h
      by_cases hk : a.1 = k
      · simp [mapDel, hk, h.1 ▸ hk, h.2]
      · have hbk : ¬ b.1 = k := h.1 ▸ hk
        simp only [mapDel, if_neg hk, if_neg hbk, List.map_cons, h.1]
        exact congrArg _ (ih t2 h.2)

theorem mapSet_keys_of_get {α : Type} (m : List (String × α)) (k : String) (v w : α)
    (h : mapGet m k = some w) : (mapSet m k v).map Prod.fst = m.map Prod.fst := by
  induction m with
  | nil => simp [mapGet] at h
  | cons a t ih =>
    by_cases hk : a.1 = k
    · simp [mapSet, hk]
    · simp only [mapGet, if_neg hk] at h
      simp [mapSet, hk, ih h]

theorem readNum_mapSet_self (props : List (String × PropVal)) (k : String) (n : JNum) :
    readNum (mapSet props k (.num n)) k = n := by
  simp [readNum, mapGet_mapSet_self]

theorem readNum_mapSet_ne (props : List (String × PropVal)) {k k' : String} (v : PropVal)
    (h : k' ≠ k) : readNum (mapSet props k v) k' = readNum props k' := by
  simp [readNum, mapGet_mapSet_ne _ _ h]

/-- `controlLight` keeps the brightness entry a real number in `[0, 100]`,
provided a `turn_on` carries an in-range (or falsy, or absent) brightness
parameter. -/
theorem controlLight_brightness (st : DeviceState) (action : String) (p : Params)
    (hp : turnOnParamOK action p)
    (hb : ∃ b : ℚ, readNum st.properties "brightness" = JNum.num b ∧ 0 ≤ b ∧ b ≤ 100) :
    ∃ b : ℚ, readNum (controlLight st action p).1.properties "brightness" = JNum.num b ∧
      0 ≤ b ∧ b ≤ 100 := by
  obtain ⟨b, hbr, hb0, hb1⟩ := hb
  by_cases h1 : action = "turn_on"
  · subst h1
    simp only [controlLight, if_pos rfl, readNum_mapSet_self]
    match hpb : p.brightness with
    | none =>
      exact ⟨100, by simp [jsOrJ, readNum_mapSet_self], by norm_num, by norm_num⟩
    | some JNum.nan =>
      exact ⟨100, by simp [jsOrJ, JNum.isFalsy, readNum_mapSet_self], by norm_num,
        by norm_num⟩
    | some (JNum.num c) =>
      by_cases hc : c = 0
      · exact ⟨100, by simp [jsOrJ, JNum.isFalsy, hc, readNum_mapSet_self], by norm_num,
          by norm_num⟩
      · have := hp rfl
        rw [hpb] at this
        rcases this with h | ⟨h0, h100⟩
        · exact absurd h hc
        · exact ⟨c, by simp [jsOrJ, JNum.isFalsy, hc, readNum_mapSet_self], h0, h100⟩
  · by_cases h2 : action = "turn_off"
    · refine ⟨b, ?_, hb0, hb1⟩
      simp only [controlLight, if_neg h1, if_pos h2]
      rw [readNum_mapSet_ne _ _ (by decide)]
      exact hbr
    · by_cases h3 : action = "dim"
      · refine ⟨max 10 (b - 20), ?_, by positivity, max_le (by norm_num) (by linarith)⟩
        simp [controlLight, h1, h2, h3, hbr, JNum.sub, jmax, readNum_mapSet_self]
      · by_cases h4 : action = "brighten"
        · refine ⟨min 100 (b + 20), ?_, le_min (by norm_num) (by linarith),
            min_le_left _ _⟩
          simp [controlLight, h1, h2, h3, h4, hbr, JNum.add, jmin, readNum_mapSet_self]
        · by_cases h5 : action = "set_brightness"
          · have key : ∃ w : ℚ, jsOrJ p.value (JNum.num 50) = JNum.num w := by
              match p.value with
              | none => exact ⟨50, by simp [jsOrJ]⟩
              | some JNum.nan => exact ⟨50, by simp [jsOrJ, JNum.isFalsy]⟩
              | some (JNum.num c) =>
                by_cases hc : c = 0
                · exact ⟨50, by simp [jsOrJ, JNum.isFalsy, hc]⟩
                · exact ⟨c, by simp [jsOrJ, JNum.isFalsy, hc]⟩
            obtain ⟨w, hw⟩ := key
            refine ⟨max 0 (min 100 w), ?_, le_max_left _ _,
              max_le (by norm_num) (min_le_left _ _)⟩
            simp [controlLight, h1, h2, h3, h4, h5, hw, jmin, jmax, readNum_mapSet_self]
          · exact ⟨b, by simp [controlLight, h1, h2, h3, h4, h5, hbr], hb0, hb1⟩

/-- No handler other than `controlLight` touches the `brightness` key. -/
theorem controlThermostat_brightness (st : DeviceState) (action : String) (p : Params) :
    readNum (controlThermostat st action p).1.properties "brightness" =
      readNum st.properties "brightness" := by
  by_cases h1 : action = "set_temperature" ∨ action = "set_value"
  · simp [controlThermostat, h1, readNum_mapSet_ne _ _ (by decide : "brightness" ≠ "target")]
  · by_cases h2 : action = "increase"
    · simp [controlThermostat, h1, h2,
        readNum_mapSet_ne _ _ (by decide : "brightness" ≠ "target")]
    · by_cases h3 : action = "decrease"
      · simp [controlThermostat, h1, h2, h3,
          readNum_mapSet_ne _ _ (by decide : "brightness" ≠ "target")]
      · simp [controlThermostat, h1, h2, h3]

theorem controlTV_brightness (st : DeviceState) (action : String) (p : Params) :
    readNum (controlTV st action p).1.properties "brightness" =
      readNum st.properties "brightness" := by
  by_cases h1 : action = "turn_on"
  · simp [controlTV, h1, readNum_mapSet_ne _ _ (by decide : "brightness" ≠ "power")]
  · by_cases h2 : action = "turn_off"
    · simp [controlTV, h1, h2, readNum_mapSet_ne _ _ (by decide : "brightness" ≠ "power")]
    · by_cases h3 : action = "volume_up" ∨ action = "increase"
      · simp [controlTV, h1, h2, h3,
          readNum_mapSet_ne _ _ (by decide : "brightness" ≠ "volume")]
      · by_cases h4 : action = "volume_down" ∨ action = "decrease"
        · simp [controlTV, h1, h2, h3, h4,
            readNum_mapSet_ne _ _ (by decide : "brightness" ≠ "volume")]
        · simp [controlTV, h1, h2, h3, h4]

theorem controlSpeaker_brightness (st : DeviceState) (action : String) :
    readNum (controlSpeaker st action).1.properties "brightness" =
      readNum st.properties "brightness" := by
  by_cases h1 : action = "start" ∨ action = "play"
  · simp [controlSpeaker, h1, readNum_mapSet_ne _ _ (by decide : "brightness" ≠ "playing")]
  · by_cases h2 : action = "stop" ∨ action = "pause"
    · simp [controlSpeaker, h1, h2,
        readNum_mapSet_ne _ _ (by decide : "brightness" ≠ "playing")]
    · by_cases h3 : action = "volume_up" ∨ action = "increase"
      · simp [controlSpeaker, h1, h2, h3,
          readNum_mapSet_ne _ _ (by decide : "brightness" ≠ "volume")]
      · by_cases h4 : action = "volume_down" ∨ action = "decrease"
        · simp [controlSpeaker, h1, h2, h3, h4,
            readNum_mapSet_ne _ _ (by decide : "brightness" ≠ "volume")]
        · simp [controlSpeaker, h1, h2, h3, h4]

theorem controlGenericDevice_brightness (st : DeviceState) (action : String) :
    readNum (controlGenericDevice st action).1.properties "brightness" =
      readNum st.properties "brightness" := by
  by_cases h1 : action = "turn_on"
  · simp [controlGenericDevice, h1,
      readNum_mapSet_ne _ _ (by decide : "brightness" ≠ "power")]
  · by_cases h2 : action = "turn_off"
    · simp [controlGenericDevice, h1, h2,
        readNum_mapSet_ne _ _ (by decide : "brightness" ≠ "power")]
    · simp [controlGenericDevice, h1, h2]

/-- `executeDeviceCommand` never changes the registry map. -/
theorem executeDeviceCommand_devices (dm : DeviceManager) (device : Device)
    (action : String) (p : Params) :
    (executeDeviceCommand dm device action p).1.devices = dm.devices := by
  unfold executeDeviceCommand
  cases mapGet dm.deviceStates device.id <;> simp

/-- `controlDevice` never changes the registry map. -/
theorem controlDevice_devices (dm : DeviceManager) (deviceId action : String) (p : Params) :
    (controlDevice dm deviceId action p).1.devices = dm.devices := by
  unfold controlDevice
  cases mapGet dm.devices deviceId with
  | none => simp
  | some device =>
    cases mapGet dm.deviceStates deviceId with
    | none => simp
    | some st =>
      by_cases h : st.status ≠ "online"
      · simp [h]
      · simp [h, executeDeviceCommand_devices]

theorem brightnessOf_mapSet_self (dm : DeviceManager) (k : String) (stv : DeviceState) :
    brightnessOf { dm with deviceStates := mapSet dm.deviceStates k stv } k =
      readNum stv.properties "brightness" := by
  unfold brightnessOf
  rw [mapGet_mapSet_self]

theorem brightnessOf_mapSet_ne (dm : DeviceManager) {k id : String} (stv : DeviceState)
    (hid : id ≠ k) :
    brightnessOf { dm with deviceStates := mapSet dm.deviceStates k stv } id =
      brightnessOf dm id := by
  unfold brightnessOf
  rw [mapGet_mapSet_ne _ _ hid]

theorem targetOf_mapSet_self (dm : DeviceManager) (k : String) (stv : DeviceState) :
    targetOf { dm with deviceStates := mapSet dm.deviceStates k stv } k =
      readNum stv.properties "target" := by
  unfold targetOf
  rw [mapGet_mapSet_self]

theorem targetOf_mapSet_ne (dm : DeviceManager) {k id : String} (stv : DeviceState)
    (hid : id ≠ k) :
    targetOf { dm with deviceStates := mapSet dm.deviceStates k stv } id =
      targetOf dm id := by
  unfold targetOf
  rw [mapGet_mapSet_ne _ _ hid]

/-- One `controlDevice` call preserves an in-range brightness at any id:
the only handler writing `brightness` is `controlLight`, which stays in
range under `turnOnParamOK`. -/
theorem controlDevice_brightOK (dm : DeviceManager) (deviceId action : String) (p : Params)
    (id : String) (hp : turnOnParamOK action p) (hb : brightOK dm id) :
    brightOK (controlDevice dm deviceId action p).1 id := by
  have hexec : ∀ device : Device, brightOK (executeDeviceCommand dm device action p).1 id := by
    intro device
    unfold executeDeviceCommand
    cases hst : mapGet dm.deviceStates device.id with
    | none => exact hb
    | some st =>
      simp only
      by_cases hid : id = device.id
      · subst hid
        obtain ⟨b, hbr, hb0, hb1⟩ := hb
        simp only [brightnessOf, hst] at hbr
        have hR : ∃ w : ℚ,
            readNum ((if device.type = "smart_light" then controlLight st action p
              else if device.type = "thermostat" then controlThermostat st action p
              else if device.type = "smart_tv" then controlTV st action p
              else if device.type = "smart_speaker" then controlSpeaker st action
              else controlGenericDevice st action).1).properties "brightness" =
              JNum.num w ∧ 0 ≤ w ∧ w ≤ 100 := by
          by_cases t1 : device.type = "smart_light"
          · rw [if_pos t1]
            exact controlLight_brightness st action p hp ⟨b, hbr, hb0, hb1⟩
          · rw [if_neg t1]
            by_cases t2 : device.type = "thermostat"
            · rw [if_pos t2, controlThermostat_brightness st action p]
              exact ⟨b, hbr, hb0, hb1⟩
            · rw [if_neg t2]
              by_cases t3 : device.type = "smart_tv"
              · rw [if_pos t3, controlTV_brightness st action p]
                exact ⟨b, hbr, hb0, hb1⟩
              · rw [if_neg t3]
                by_cases t4 : device.type = "smart_speaker"
                · rw [if_pos t4, controlSpeaker_brightness st action]
                  exact ⟨b, hbr, hb0, hb1⟩
                · rw [if_neg t4, controlGenericDevice_brightness st action]
                  exact ⟨b, hbr, hb0, hb1⟩
        obtain ⟨w, hw, h0, h1⟩ := hR
        exact ⟨w, by rw [brightnessOf_mapSet_self]; exact hw, h0, h1⟩
      · obtain ⟨w, hw, h0, h1⟩ := hb
        exact ⟨w, by rw [brightnessOf_mapSet_ne _ _ hid]; exact hw, h0, h1⟩
  unfold controlDevice
  cases hdev : mapGet dm.devices deviceId with
  | none => exact hb
  | some device =>
    cases hst0 : mapGet dm.deviceStates deviceId with
    | none => exact hb
    | some st0 =>
      show brightOK (if st0.status ≠ "online" then (dm, false)
        else executeDeviceCommand dm device action p).1 id
      by_cases hon : st0.status ≠ "online"
      · rw [if_pos hon]
        exact hb
      · rw [if_neg hon]
        exact hexec device

/-- `controlThermostat` keeps the target entry a real number in `[50, 90]`:
set actions clamp, increase/decrease adjust within the clamp. -/
theorem controlThermostat_target (st : DeviceState) (action : String) (p : Params)
    (hb : ∃ t : ℚ, readNum st.properties "target" = JNum.num t ∧ 50 ≤ t ∧ t ≤ 90) :
    ∃ t : ℚ, readNum (controlThermostat st action p).1.properties "target" = JNum.num t ∧
      50 ≤ t ∧ t ≤ 90 := by
  obtain ⟨t, htr, ht0, ht1⟩ := hb
  by_cases h1 : action = "set_temperature" ∨ action = "set_value"
  · have key : ∃ w : ℚ, jsOrJ p.value (jsOrJ p.temperature (JNum.num 72)) = JNum.num w := by
      have inner : ∃ w : ℚ, jsOrJ p.temperature (JNum.num 72) = JNum.num w := by
        match p.temperature with
        | none => exact ⟨72, by simp [jsOrJ]⟩
        | some JNum.nan => exact ⟨72, by simp [jsOrJ, JNum.isFalsy]⟩
        | some (JNum.num c) =>
          by_cases hc : c = 0
          · exact ⟨72, by simp [jsOrJ, JNum.isFalsy, hc]⟩
          · exact ⟨c, by simp [jsOrJ, JNum.isFalsy, hc]⟩
      obtain ⟨w0, hw0⟩ := inner
      match p.value with
      | none => exact ⟨w0, by simpa [jsOrJ] using hw0⟩
      | some JNum.nan => exact ⟨w0, by simpa [jsOrJ, JNum.isFalsy] using hw0⟩
      | some (JNum.num c) =>
        by_cases hc : c = 0
        · exact ⟨w0, by simpa [jsOrJ, JNum.isFalsy, hc] using hw0⟩
        · exact ⟨c, by simp [jsOrJ, JNum.isFalsy, hc]⟩
    obtain ⟨w, hw⟩ := key
    refine ⟨max 50 (min 90 w), ?_, le_max_left _ _,
      max_le (by norm_num) (min_le_left _ _)⟩
    simp [controlThermostat, h1, hw, jmin, jmax, readNum_mapSet_self]
  · by_cases h2 : action = "increase"
    · refine ⟨min 90 (t + 2), ?_, le_min (by linarith) (by linarith), min_le_left _ _⟩
      simp [controlThermostat, h1, h2, htr, JNum.add, jmin, readNum_mapSet_self]
    · by_cases h3 : action = "decrease"
      · refine ⟨max 50 (t - 2), ?_, le_max_left _ _, max_le (by linarith) (by linarith)⟩
        simp [controlThermostat, h1, h2, h3, htr, JNum.sub, jmax, readNum_mapSet_self]
      · exact ⟨t, by simp [controlThermostat, h1, h2, h3, htr], ht0, ht1⟩

/-- No handler other than `controlThermostat` touches the `target` key. -/
theorem controlLight_target (st : DeviceState) (action : String) (p : Params) :
    readNum (controlLight st action p).1.properties "target" =
      readNum st.properties "target" := by
  by_cases h1 : action = "turn_on"
  · simp [controlLight, h1, readNum_mapSet_ne _ _ (by decide : "target" ≠ "brightness"),
      readNum_mapSet_ne _ _ (by decide : "target" ≠ "power")]
  · by_cases h2 : action = "turn_off"
    · simp [controlLight, h1, h2, readNum_mapSet_ne _ _ (by decide : "target" ≠ "power")]
    · by_cases h3 : action = "dim"
      · simp [controlLight, h1, h2, h3,
          readNum_mapSet_ne _ _ (by decide : "target" ≠ "brightness")]
      · by_cases h4 : action = "brighten"
        · simp [controlLight, h1, h2, h3, h4,
            readNum_mapSet_ne _ _ (by decide : "target" ≠ "brightness")]
        · by_cases h5 : action = "set_brightness"
          · simp [controlLight, h1, h2, h3, h4, h5,
              readNum_mapSet_ne _ _ (by decide : "target" ≠ "brightness")]
          · simp [controlLight, h1, h2, h3, h4, h5]

theorem controlTV_target (st : DeviceState) (action : String) (p : Params) :
    readNum (controlTV st action p).1.properties "target" =
      readNum st.properties "target" := by
  by_cases h1 : action = "turn_on"
  · simp [controlTV, h1, readNum_mapSet_ne _ _ (by decide : "target" ≠ "power")]
  · by_cases h2 : action = "turn_off"
    · simp [controlTV, h1, h2, readNum_mapSet_ne _ _ (by decide : "target" ≠ "power")]
    · by_cases h3 : action = "volume_up" ∨ action = "increase"
      · simp [controlTV, h1, h2, h3, readNum_mapSet_ne _ _ (by decide : "target" ≠ "volume")]
      · by_cases h4 : action = "volume_down" ∨ action = "decrease"
        · simp [controlTV, h1, h2, h3, h4,
            readNum_mapSet_ne _ _ (by decide : "target" ≠ "volume")]
        · simp [controlTV, h1, h2, h3, h4]

theorem controlSpeaker_target (st : DeviceState) (action : String) :
    readNum (controlSpeaker st action).1.properties "target" =
      readNum st.properties "target" := by
  by_cases h1 : action = "start" ∨ action = "play"
  · simp [controlSpeaker, h1, readNum_mapSet_ne _ _ (by decide : "target" ≠ "playing")]
  · by_cases h2 : action = "stop" ∨ action = "pause"
    · simp [controlSpeaker, h1, h2, readNum_mapSet_ne _ _ (by decide : "target" ≠ "playing")]
    · by_cases h3 : action = "volume_up" ∨ action = "increase"
      · simp [controlSpeaker, h1, h2, h3,
          readNum_mapSet_ne _ _ (by decide : "target" ≠ "volume")]
      · by_cases h4 : action = "volume_down" ∨ action = "decrease"
        · simp [controlSpeaker, h1, h2, h3, h4,
            readNum_mapSet_ne _ _ (by decide : "target" ≠ "volume")]
        · simp [controlSpeaker, h1, h2, h3, h4]

theorem controlGenericDevice_target (st : DeviceState) (action : String) :
    readNum (controlGenericDevice st action).1.properties "target" =
      readNum st.properties "target" := by
  by_cases h1 : action = "turn_on"
  · simp [controlGenericDevice, h1, readNum_mapSet_ne _ _ (by decide : "target" ≠ "power")]
  · by_cases h2 : action = "turn_off"
    · simp [controlGenericDevice, h1, h2,
        readNum_mapSet_ne _ _ (by decide : "target" ≠ "power")]
    · simp [controlGenericDevice, h1, h2]

/-- One `controlDevice` call preserves an in-range thermostat target at any
id, whatever the action and parameters. -/
theorem controlDevice_targetOK (dm : DeviceManager) (deviceId action : String) (p : Params)
    (id : String) (hb : targetOK dm id) :
    targetOK (controlDevice dm deviceId action p).1 id := by
  have hexec : ∀ device : Device, targetOK (executeDeviceCommand dm device action p).1 id := by
    intro device
    unfold executeDeviceCommand
    cases hst : mapGet dm.deviceStates device.id with
    | none => exact hb
    | some st =>
      simp only
      by_cases hid : id = device.id
      · subst hid
        obtain ⟨t, htr, ht0, ht1⟩ := hb
        simp only [targetOf, hst] at htr
        have hR : ∃ w : ℚ,
            readNum ((if device.type = "smart_light" then controlLight st action p
              else if device.type = "thermostat" then controlThermostat st action p
              else if device.type = "smart_tv" then controlTV st action p
              else if device.type = "smart_speaker" then controlSpeaker st action
              else controlGenericDevice st action).1).properties "target" =
              JNum.num w ∧ 50 ≤ w ∧ w ≤ 90 := by
          by_cases t1 : device.type = "smart_light"
          · rw [if_pos t1, controlLight_target st action p]
            exact ⟨t, htr, ht0, ht1⟩
          · rw [if_neg t1]
            by_cases t2 : device.type = "thermostat"
            · rw [if_pos t2]
              exact controlThermostat_target st action p ⟨t, htr, ht0, ht1⟩
            · rw [if_neg t2]
              by_cases t3 : device.type = "smart_tv"
              · rw [if_pos t3, controlTV_target st action p]
                exact ⟨t, htr, ht0, ht1⟩
              · rw [if_neg t3]
                by_cases t4 : device.type = "smart_speaker"
                · rw [if_pos t4, controlSpeaker_target st action]
                  exact ⟨t, htr, ht0, ht1⟩
                · rw [if_neg t4, controlGenericDevice_target st action]
                  exact ⟨t, htr, ht0, ht1⟩
        obtain ⟨w, hw, h0, h1⟩ := hR
        exact ⟨w, by rw [targetOf_mapSet_self]; exact hw, h0, h1⟩
      · obtain ⟨w, hw, h0, h1⟩ := hb
        exact ⟨w, by rw [targetOf_mapSet_ne _ _ hid]; exact hw, h0, h1⟩
  unfold controlDevice
  cases hdev : mapGet dm.devices deviceId with
  | none => exact hb
  | some device =>
    cases hst0 : mapGet dm.deviceStates deviceId with
    | none => exact hb
    | some st0 =>
      show targetOK (if st0.status ≠ "online" then (dm, false)
        else executeDeviceCommand dm device action p).1 id
      by_cases hon : st0.status ≠ "online"
      · rw [if_pos hon]
        exact hb
      · rw [if_neg hon]
        exact hexec device

/-- C2 (counterexample): from the default registry — where the living-room
light is online with brightness 100 ∈ [0, 100] — a single
`controlDevice('living_room-light', 'turn_on', { brightness: 150 })` call
drives the brightness property to 150, outside [0, 100]: `turn_on` assigns
`parameters?.brightness || 100` without clamping. -/
theorem C2_counterexample :
    brightnessOf (initializeDefaultDevices 0) "living_room-light" = JNum.num 100 ∧
    brightnessOf (controlDevice (initializeDefaultDevices 0) "living_room-light" "turn_on"
        { brightness := some (JNum.num 150) }).1 "living_room-light" = JNum.num 150 ∧
    ¬ ((150 : ℚ) ≤ 100) := by
  refine ⟨by decide, by decide, by norm_num⟩

/-- C2 (amended): for a registered `smart_light` whose brightness starts as
a real number in [0, 100], any sequence of `controlDevice` calls — any
device ids and actions — keeps that brightness within [0, 100], provided
every `turn_on` call's `brightness` parameter is absent, falsy, or itself
within [0, 100].  (Without that proviso the claim fails: see the
counterexample with `brightness: 150`.) -/
theorem C2_brightness_invariant
    (dm : DeviceManager) (id : String) (dev : Device)
    (steps : List (String × String × Params))
    (hdev : mapGet dm.devices id = some dev)
    (htype : dev.type = "smart_light")
    (hparams : ∀ s ∈ steps, turnOnParamOK s.2.1 s.2.2)
    (hb : brightOK dm id) :
    brightOK (steps.foldl (fun d s => (controlDevice d s.1 s.2.1 s.2.2).1) dm) id := by
  induction steps generalizing dm with
  | nil => exact hb
  | cons s rest ih =>
    exact ih ((controlDevice dm s.1 s.2.1 s.2.2).1)
      (by rw [controlDevice_devices]; exact hdev)
      (fun x hx => hparams x (List.mem_cons_of_mem _ hx))
      (controlDevice_brightOK dm s.1 s.2.1 s.2.2 id
        (hparams s (List.mem_cons_self _ _)) hb)

/-- Witness for C2 (amended): the default living-room light, dimmed and then
turned on at brightness 55, stays within [0, 100]. -/
theorem C2_witness :
    brightOK (initializeDefaultDevices 0) "living_room-light" ∧
    brightOK ([("living_room-light", "dim", ({} : Params)),
        ("living_room-light", "turn_on",
          ({ brightness := some (JNum.num 55) } : Params))].foldl
        (fun d s => (controlDevice d s.1 s.2.1 s.2.2).1) (initializeDefaultDevices 0))
      "living_room-light" := by
  have h0 : brightOK (initializeDefaultDevices 0) "living_room-light" :=
    ⟨100, by decide, by norm_num, by norm_num⟩
  refine ⟨h0, C2_brightness_invariant (initializeDefaultDevices 0) "living_room-light"
    { id := "living_room-light", name := "Living Room Light",
      type := "smart_light", status := "online" } _ (by decide) rfl ?_ h0⟩
  intro s hs
  rcases List.mem_cons.mp hs with h | hs2
  · subst h
    intro hac
    exact absurd hac (by decide)
  · rcases List.mem_cons.mp hs2 with h | hs3
    · subst h
      intro _
      exact Or.inr ⟨by norm_num, by norm_num⟩
    · cases hs3

/-- C3: for a registered thermostat whose target starts as a real number in
[50, 90], any sequence of `controlDevice` calls whose actions are among
`set_temperature`, `set_value`, `increase`, `decrease` — any parameters —
keeps the target within [50, 90] (sets clamp, steps of ±2 stay inside the
clamp).  The action restriction is the claim's; the handlers preserve the
bounds for every action. -/
theorem C3_thermostat_target_invariant
    (dm : DeviceManager) (id : String) (dev : Device)
    (steps : List (String × String × Params))
    (hdev : mapGet dm.devices id = some dev)
    (htype : dev.type = "thermostat")
    (hacts : ∀ s ∈ steps, s.2.1 = "set_temperature" ∨ s.2.1 = "set_value" ∨
      s.2.1 = "increase" ∨ s.2.1 = "decrease")
    (ht : targetOK dm id) :
    targetOK (steps.foldl (fun d s => (controlDevice d s.1 s.2.1 s.2.2).1) dm) id := by
  induction steps generalizing dm with
  | nil => exact ht
  | cons s rest ih =>
    exact ih ((controlDevice dm s.1 s.2.1 s.2.2).1)
      (by rw [controlDevice_devices]; exact hdev)
      (fun x hx => hacts x (List.mem_cons_of_mem _ hx))
      (controlDevice_targetOK dm s.1 s.2.1 s.2.2 id ht)

/-- Witness for C3: the default thermostat, set to 95 °F (clamped to 90) and
then increased, stays within [50, 90]. -/
theorem C3_witness :
    targetOK (initializeDefaultDevices 0) "main-thermostat" ∧
    targetOK ([("main-thermostat", "set_temperature",
        ({ value := some (JNum.num 95) } : Params)),
        ("main-thermostat", "increase", ({} : Params))].foldl
        (fun d s => (controlDevice d s.1 s.2.1 s.2.2).1) (initializeDefaultDevices 0))
      "main-thermostat" := by
  have h0 : targetOK (initializeDefaultDevices 0) "main-thermostat" :=
    ⟨72, by decide, by norm_num, by norm_num⟩
  refine ⟨h0, C3_thermostat_target_invariant (initializeDefaultDevices 0) "main-thermostat"
    { id := "main-thermostat", name := "Main Thermostat",
      type := "thermostat", status := "online" } _ (by decide) rfl ?_ h0⟩
  intro s hs
  rcases List.mem_cons.mp hs with h | hs2
  · subst h
    exact Or.inl rfl
  · rcases List.mem_cons.mp hs2 with h | hs3
    · subst h
      exact Or.inr (Or.inr (Or.inl rfl))
    · cases hs3

/-- C4: `controlDevice` on an id that is unregistered, or whose state is
missing or not `online`, returns `false` and leaves the whole manager —
both maps, hence every device's status, `lastSeen` and properties —
unchanged.  Totality of the definition renders the source's `try`/`catch`
guarantee that nothing is thrown past `DeviceManager`. -/
theorem C4_control_unknown_or_offline (dm : DeviceManager)
    (deviceId action : String) (parameters : Params)
    (h : mapGet dm.devices deviceId = none ∨
      ∀ st, mapGet dm.deviceStates deviceId = some st → st.status ≠ "online") :
    controlDevice dm deviceId action parameters = (dm, false) := by
  unfold controlDevice
  cases hdev : mapGet dm.devices deviceId with
  | none => rfl
  | some device =>
    rcases h with h | h
    · rw [h] at hdev
      cases hdev
    · cases hst : mapGet dm.deviceStates deviceId with
      | none => rfl
      | some st =>
        show (if st.status ≠ "online" then (dm, false)
          else executeDeviceCommand dm device action parameters) = (dm, false)
        rw [if_pos (h st hst)]

/-- Witness for C4: an unknown id against the default registry. -/
theorem C4_witness :
    controlDevice (initializeDefaultDevices 0) "garage-door" "turn_on" {} =
      (initializeDefaultDevices 0, false) :=
  C4_control_unknown_or_offline (initializeDefaultDevices 0) "garage-door" "turn_on" {}
    (Or.inl (by decide))

theorem removeDevice_true_iff (dm : DeviceManager) (id : String) :
    (removeDevice dm id).2 = true ↔ (mapGet dm.devices id).isSome := by
  unfold removeDevice
  cases mapGet dm.devices id <;> simp

/-- Every operation preserves equality of the two maps' key lists. -/
theorem applyOp_keys (dm : DeviceManager) (op : DMOp)
    (h : dm.devices.map Prod.fst = dm.deviceStates.map Prod.fst) :
    (applyOp dm op).devices.map Prod.fst = (applyOp dm op).deviceStates.map Prod.fst := by
  cases op with
  | add d now => exact mapSet_keys_congr _ _ _ _ _ h
  | remove id =>
    show ((removeDevice dm id).1).devices.map Prod.fst =
      ((removeDevice dm id).1).deviceStates.map Prod.fst
    unfold removeDevice
    cases mapGet dm.devices id with
    | none => exact h
    | some d => exact mapDel_keys_congr dm.devices dm.deviceStates id h
  | control id action p =>
    show ((controlDevice dm id action p).1).devices.map Prod.fst =
      ((controlDevice dm id action p).1).deviceStates.map Prod.fst
    unfold controlDevice
    cases mapGet dm.devices id with
    | none => exact h
    | some device =>
      cases mapGet dm.deviceStates id with
      | none => exact h
      | some st0 =>
        by_cases hon : st0.status ≠ "online"
        · simp only [if_pos hon]
          exact h
        · simp only [if_neg hon]
          unfold executeDeviceCommand
          cases hst : mapGet dm.deviceStates device.id with
          | none => exact h
          | some st =>
            simp only
            rw [mapSet_keys_of_get _ _ _ _ hst]
            exact h
  | discover f now =>
    show ((discoverDevices dm f now).devices.map Prod.fst) =
      ((discoverDevices dm f now).deviceStates.map Prod.fst)
    unfold discoverDevices
    simp only [List.map_map]
    exact h
  | destroy => rfl

/-- C10: from construction on, through any sequence of add / remove /
control / discovery / destroy operations, the registry map and the state
map always hold exactly the same keys (in the same order), and
`removeDevice` returns `true` exactly when the id is registered. -/
theorem C10_keyset_invariant (now : Nat) (ops : List DMOp) :
    ((ops.foldl applyOp (initializeDefaultDevices now)).devices.map Prod.fst =
      (ops.foldl applyOp (initializeDefaultDevices now)).deviceStates.map Prod.fst) ∧
    ∀ id : String,
      ((removeDevice (ops.foldl applyOp (initializeDefaultDevices now)) id).2 = true ↔
        (mapGet (ops.foldl applyOp (initializeDefaultDevices now)).devices id).isSome) := by
  refine ⟨?_, fun id => removeDevice_true_iff _ id⟩
  have hinit : (initializeDefaultDevices now).devices.map Prod.fst =
      (initializeDefaultDevices now).deviceStates.map Prod.fst := by rfl
  revert hinit
  generalize initializeDefaultDevices now = dm0
  intro hinit
  induction ops generalizing dm0 with
  | nil => exact hinit
  | cons op rest ih => exact ih _ (applyOp_keys dm0 op hinit)

end DeviceCtl

namespace SpeechSynth

theorem processQueue_playing (st : SynthState) (h : st.isPlaying = true) :
    processQueue st = st := by
  unfold processQueue
  rw [if_pos (Or.inl h)]

theorem speak_playing (st : SynthState) (text : String) (language : Option String)
    (priority : ℚ) (hplay : st.isPlaying = true) (htext : jsTrim text ≠ "") :
    speak st text language priority =
      { st with
        speechQueue := enqueue st.speechQueue
          ⟨jsTrim text, jsOrStr language "en-US", priority⟩ } := by
  unfold speak
  rw [if_neg htext]
  exact processQueue_playing _ hplay

theorem mem_insertAt {z r : SpeechRequest} :
    ∀ {i : Nat} {q : List SpeechRequest}, z ∈ insertAt i r q → z = r ∨ z ∈ q := by
  intro i
  induction i with
  | zero =>
    intro q hz
    cases q with
    | nil => simpa [insertAt] using hz
    | cons x xs => simpa [insertAt] using hz
  | succ n ih =>
    intro q hz
    cases q with
    | nil => simpa [insertAt] using hz
    | cons x xs =>
      simp only [insertAt, List.mem_cons] at hz
      rcases hz with h | h
      · exact Or.inr (List.mem_cons.mpr (Or.inl h))
      · rcases ih h with h2 | h2
        · exact Or.inl h2
        · exact Or.inr (List.mem_cons.mpr (Or.inr h2))

theorem mem_enqueue {z : SpeechRequest} {q : List SpeechRequest} {r : SpeechRequest}
    (hz : z ∈ enqueue q r) : z = r ∨ z ∈ q := by
  unfold enqueue at hz
  cases hfi : findIndexQ (fun item => decide (jsOrQ item.priority 1 < r.priority)) q with
  | none =>
    rw [hfi] at hz
    simp only [List.mem_append, List.mem_singleton] at hz
    tauto
  | some i =>
    rw [hfi] at hz
    exact mem_insertAt hz

theorem enqueue_cons_of_lt (x : SpeechRequest) (xs : List SpeechRequest)
    (r : SpeechRequest) (hx : x.priority ≠ 0) (hlt : x.priority < r.priority) :
    enqueue (x :: xs) r = r :: x :: xs := by
  unfold enqueue
  have hpred : (fun item : SpeechRequest =>
      decide (jsOrQ item.priority 1 < r.priority)) x = true := by
    simp [jsOrQ, hx, hlt]
  simp [findIndexQ, hpred, insertAt]

theorem enqueue_cons_of_not_lt (x : SpeechRequest) (xs : List SpeechRequest)
    (r : SpeechRequest) (hx : x.priority ≠ 0) (hlt : ¬ x.priority < r.priority) :
    enqueue (x :: xs) r = x :: enqueue xs r := by
  unfold enqueue
  have hpred : (fun item : SpeechRequest =>
      decide (jsOrQ item.priority 1 < r.priority)) x = false := by
    simp [jsOrQ, hx, hlt]
  simp only [findIndexQ, hpred, Bool.false_eq_true, if_false]
  cases hfi : findIndexQ (fun item => decide (jsOrQ item.priority 1 < r.priority)) xs with
  | none => simp
  | some i => simp [insertAt]

theorem enqueue_char (q : List SpeechRequest) (r : SpeechRequest)
    (hq : ∀ x ∈ q, x.priority ≠ 0) :
    enqueue q r =
      q.takeWhile (fun x => decide (r.priority ≤ x.priority)) ++
        r :: q.dropWhile (fun x => decide (r.priority ≤ x.priority)) := by
  induction q with
  | nil => rfl
  | cons x xs ih =>
    have hx : x.priority ≠ 0 := hq x (List.mem_cons_self _ _)
    have hxs : ∀ y ∈ xs, y.priority ≠ 0 := fun y hy => hq y (List.mem_cons_of_mem _ hy)
    by_cases hlt : x.priority < r.priority
    · rw [enqueue_cons_of_lt x xs r hx hlt]
      have hxf : (fun y : SpeechRequest => decide (r.priority ≤ y.priority)) x = false := by
        simp [not_le.mpr hlt]
      simp [List.takeWhile_cons, List.dropWhile_cons, hxf]
    · rw [enqueue_cons_of_not_lt x xs r hx hlt, ih hxs]
      have hxt : (fun y : SpeechRequest => decide (r.priority ≤ y.priority)) x = true := by
        simp [not_lt.mp hlt]
      simp [List.takeWhile_cons, List.dropWhile_cons, hxt]

theorem enqueue_sorted (q : List SpeechRequest) (r : SpeechRequest)
    (hq : ∀ x ∈ q, x.priority ≠ 0) (hs : sortedDesc q) :
    sortedDesc (enqueue q r) := by
  induction q with
  | nil =>
    unfold enqueue findIndexQ
    simp [sortedDesc]
  | cons x xs ih =>
    have hx : x.priority ≠ 0 := hq x (List.mem_cons_self _ _)
    have hxs : ∀ y ∈ xs, y.priority ≠ 0 := fun y hy => hq y (List.mem_cons_of_mem _ hy)
    rw [sortedDesc, List.pairwise_cons] at hs
    obtain ⟨hs1, hs2⟩ := hs
    by_cases hlt : x.priority < r.priority
    · rw [enqueue_cons_of_lt x xs r hx hlt]
      rw [sortedDesc, List.pairwise_cons]
      refine ⟨?_, List.pairwise_cons.mpr ⟨hs1, hs2⟩⟩
      intro z hz
      rcases List.mem_cons.mp hz with h | h
      · exact h ▸ le_of_lt hlt
      · exact le_trans (hs1 z h) (le_of_lt hlt)
    · rw [enqueue_cons_of_not_lt x xs r hx hlt]
      rw [sortedDesc, List.pairwise_cons]
      refine ⟨?_, ih hxs hs2⟩
      intro z hz
      rcases mem_enqueue hz with h | h
      · exact h ▸ not_lt.mp hlt
      · exact hs1 z h

theorem takeWhile_length_le (p : SpeechRequest → Bool) (A : List SpeechRequest)
    (y : SpeechRequest) (B : List SpeechRequest) (hy : p y = false) :
    ((A ++ y :: B).takeWhile p).length ≤ A.length := by
  induction A with
  | nil => simp [List.takeWhile_cons, hy]
  | cons a A' ih =>
    by_cases ha : p a
    · simp only [List.cons_append, List.takeWhile_cons, ha, if_true, List.length_cons]
      omega
    · simp [List.takeWhile_cons, ha]

end SpeechSynth

namespace SpeechSynth

/-- C1 (counterexample): with playback busy, enqueueing priorities p2 = 0
then p1 = 1 (p1 > p2) leaves the queue ordered p2-before-p1 — the dequeue
order is p2 first, and the queue is not sorted by descending priority.  The
cause: `findIndex(item => (item.priority || 1) < priority)` coerces the
stored priority 0 to 1, so `1 < 1` fails and the new priority-1 request is
pushed behind the priority-0 one. -/
theorem C1_counterexample :
    ((speak (speak ⟨[], true⟩ "first" none 0) "second" none 1).speechQueue.map
        (fun r => r.priority) = [0, 1]) ∧
    (0 : ℚ) < 1 ∧
    ¬ sortedDesc (speak (speak ⟨[], true⟩ "first" none 0) "second" none 1).speechQueue := by
  refine ⟨by decide, by norm_num, ?_⟩
  intro hs
  rw [show (speak (speak ⟨[], true⟩ "first" none 0) "second" none 1).speechQueue =
    [⟨"first", "en-US", 0⟩, ⟨"second", "en-US", 1⟩] from by decide] at hs
  rw [sortedDesc, List.pairwise_cons] at hs
  have := hs.1 ⟨"second", "en-US", 1⟩ (List.mem_cons_self _ _)
  norm_num at this

/-- C1 (amended): the claim holds once every priority involved is nonzero
(`item.priority || 1` reads a stored 0 as 1, which breaks it otherwise):
(1) `speak`'s insertion places the new request after exactly the prefix of
entries with priority ≥ the new one — first strictly-lower position, FIFO
among equals; (2) insertion preserves descending-priority sortedness;
(3) for p1 > p2 (p2 nonzero) enqueued in the order p2 then p1 while
playback is busy, the p1 request ends up strictly ahead of the p2 request
in the queue, so it is dequeued first. -/
theorem C1_amended :
    (∀ (q : List SpeechRequest) (r : SpeechRequest), (∀ x ∈ q, x.priority ≠ 0) →
      enqueue q r = q.takeWhile (fun x => decide (r.priority ≤ x.priority)) ++
        r :: q.dropWhile (fun x => decide (r.priority ≤ x.priority))) ∧
    (∀ (q : List SpeechRequest) (r : SpeechRequest), (∀ x ∈ q, x.priority ≠ 0) →
      sortedDesc q → sortedDesc (enqueue q r)) ∧
    (∀ (st : SynthState) (t1 t2 : String) (l1 l2 : Option String) (p1 p2 : ℚ),
      st.isPlaying = true → (∀ x ∈ st.speechQueue, x.priority ≠ 0) →
      p2 ≠ 0 → p2 < p1 → jsTrim t1 ≠ "" → jsTrim t2 ≠ "" →
      ∃ i j : Nat, i < j ∧
        (speak (speak st t2 l2 p2) t1 l1 p1).speechQueue[i]? =
          some ⟨jsTrim t1, jsOrStr l1 "en-US", p1⟩ ∧
        (speak (speak st t2 l2 p2) t1 l1 p1).speechQueue[j]? =
          some ⟨jsTrim t2, jsOrStr l2 "en-US", p2⟩) := by
  refine ⟨enqueue_char, enqueue_sorted, ?_⟩
  intro st t1 t2 l1 l2 p1 p2 hplay hq hp2 hlt ht1 ht2
  set req1 : SpeechRequest := ⟨jsTrim t1, jsOrStr l1 "en-US", p1⟩ with hreq1
  set req2 : SpeechRequest := ⟨jsTrim t2, jsOrStr l2 "en-US", p2⟩ with hreq2
  have hs2 : speak st t2 l2 p2 =
      { st with speechQueue := enqueue st.speechQueue req2 } :=
    speak_playing st t2 l2 p2 hplay ht2
  have hs1 : speak (speak st t2 l2 p2) t1 l1 p1 =
      { st with speechQueue := enqueue (enqueue st.speechQueue req2) req1 } := by
    rw [hs2]
    exact speak_playing _ t1 l1 p1 hplay ht1
  rw [hs1]
  simp only
  -- the first insertion, characterized
  have hchar2 := enqueue_char st.speechQueue req2 hq
  set A2 := st.speechQueue.takeWhile
    (fun x => decide (req2.priority ≤ x.priority)) with hA2
  set B2 := st.speechQueue.dropWhile
    (fun x => decide (req2.priority ≤ x.priority)) with hB2
  -- all entries of the once-extended queue have nonzero priorities
  have hq1 : ∀ x ∈ enqueue st.speechQueue req2, x.priority ≠ 0 := by
    intro x hx
    rcases mem_enqueue hx with h | h
    · rw [h]
      exact hp2
    · exact hq x h
  have hchar1 := enqueue_char (enqueue st.speechQueue req2) req1 hq1
  set T := (enqueue st.speechQueue req2).takeWhile
    (fun x => decide (req1.priority ≤ x.priority)) with hT
  set D := (enqueue st.speechQueue req2).dropWhile
    (fun x => decide (req1.priority ≤ x.priority)) with hD
  -- the p2 request fails the p1 prefix predicate
  have hfail : (fun x : SpeechRequest => decide (req1.priority ≤ x.priority)) req2
      = false := by
    simp [hreq1, hreq2, not_le.mpr hlt]
  have hTlen : T.length ≤ A2.length := by
    rw [hT, hchar2]
    exact takeWhile_length_le _ A2 req2 B2 hfail
  refine ⟨T.length, A2.length + 1, by omega, ?_, ?_⟩
  · rw [hchar1]
    rw [List.getElem?_append_right (le_refl T.length)]
    simp
  · rw [hchar1]
    have hTD : T ++ D = enqueue st.speechQueue req2 := by
      rw [hT, hD]
      exact List.takeWhile_append_dropWhile _ _
    have hDdrop : D = (enqueue st.speechQueue req2).drop T.length := by
      rw [← hTD, List.drop_left]
    rw [List.getElem?_append_right (by omega : T.length ≤ A2.length + 1)]
    have hidx : A2.length + 1 - T.length = (A2.length - T.length) + 1 := by omega
    rw [hidx]
    simp only [List.getElem?_cons_succ]
    rw [hDdrop, List.getElem?_drop]
    have hidx2 : T.length + (A2.length - T.length) = A2.length := by omega
    rw [hidx2, hchar2]
    rw [List.getElem?_append_right (le_refl A2.length)]
    simp

/-- Witness for C1 (amended), at priorities 2 > 1 over the empty busy
queue: the priority-2 request sits strictly ahead of the priority-1 one. -/
theorem C1_witness :
    ∃ i j : Nat, i < j ∧
      (speak (speak ⟨[], true⟩ "low" none 1) "high" none 2).speechQueue[i]? =
        some ⟨jsTrim "high", jsOrStr none "en-US", 2⟩ ∧
      (speak (speak ⟨[], true⟩ "low" none 1) "high" none 2).speechQueue[j]? =
        some ⟨jsTrim "low", jsOrStr none "en-US", 1⟩ :=
  C1_amended.2.2 ⟨[], true⟩ "high" "low" none none 2 1 rfl (by simp)
    (by norm_num) (by norm_num) (by decide) (by decide)

end SpeechSynth

namespace Config

open DeviceCtl

theorem mapSet_get_id {α : Type} (m : List (String × α)) (k : String) (v : α)
    (h : mapGet m k = some v) : mapSet m k v = m := by
  induction m with
  | nil => simp [mapGet] at h
  | cons kv rest ih =>
    by_cases hk : kv.1 = k
    · simp only [mapGet, if_pos hk] at h
      injection h with h2
      subst hk
      subst h2
      simp [mapSet]
    · simp only [mapGet, if_neg hk] at h
      simp [mapSet, hk, ih h]

theorem mapGet_of_mem_nodup {α : Type} (fs : List (String × α))
    (hnd : keyNodup (fs.map Prod.fst) = true) :
    ∀ kv ∈ fs, mapGet fs kv.1 = some kv.2 := by
  induction fs with
  | nil => intro kv h; cases h
  | cons a rest ih =>
    simp only [List.map_cons, keyNodup, Bool.and_eq_true, Bool.not_eq_true'] at hnd
    intro kv hmem
    rcases List.mem_cons.mp hmem with h | h
    · subst h
      simp [mapGet]
    · by_cases hk : a.1 = kv.1
      · exfalso
        have hmemk : kv.1 ∈ rest.map Prod.fst := List.mem_map_of_mem Prod.fst h
        have : (rest.map Prod.fst).contains a.1 = true := by
          rw [hk]
          exact List.elem_eq_true_of_mem hmemk
        rw [hnd.1] at this
        cases this
      · simp only [mapGet, if_neg hk]
        exact ih hnd.2 kv h

theorem wfJ_obj (fs : List (String × JValue)) (h : wfJ (JValue.obj fs) = true) :
    keyNodup (fs.map Prod.fst) = true ∧ wfFields fs = true := by
  simp only [wfJ, Bool.and_eq_true] at h
  exact h

theorem wfFields_mem (fs : List (String × JValue)) (h : wfFields fs = true) :
    ∀ kv ∈ fs, wfJ kv.2 = true := by
  induction fs with
  | nil => intro kv h2; cases h2
  | cons a rest ih =>
    simp only [wfFields, Bool.and_eq_true] at h
    intro kv hm
    rcases List.mem_cons.mp hm with h2 | h2
    · exact h2 ▸ h.1
    · exact ih h.2 kv h2

/-- Strong-induction workhorse for `dmGo_self`, with an explicit size
bound. -/
theorem dmGo_self_aux (n : Nat) :
    ∀ (sfs tfs result : List (String × JValue)), sizeOf sfs ≤ n →
    (∀ kv ∈ sfs, mapGet tfs kv.1 = some kv.2 ∧ mapGet result kv.1 = some kv.2) →
    (∀ kv ∈ sfs, wfJ kv.2 = true) →
    dmGo tfs result sfs = result := by
  induction n with
  | zero =>
    intro sfs tfs result hsz hsub hwf
    cases sfs with
    | nil => simp [dmGo]
    | cons kv rest =>
      exfalso
      simp only [List.cons.sizeOf_spec] at hsz
      omega
  | succ n ih =>
    intro sfs tfs result hsz hsub hwf
    cases sfs with
    | nil => simp [dmGo]
    | cons kv rest =>
      obtain ⟨k, v⟩ := kv
      have h1 := hsub (k, v) (List.mem_cons_self _ _)
      have hw1 := hwf (k, v) (List.mem_cons_self _ _)
      have hrest_sub : ∀ kv ∈ rest,
          mapGet tfs kv.1 = some kv.2 ∧ mapGet result kv.1 = some kv.2 :=
        fun kv h => hsub kv (List.mem_cons_of_mem _ h)
      have hrest_wf : ∀ kv ∈ rest, wfJ kv.2 = true :=
        fun kv h => hwf kv (List.mem_cons_of_mem _ h)
      have hszrest : sizeOf rest ≤ n := by
        simp only [List.cons.sizeOf_spec] at hsz
        have : 1 ≤ sizeOf (k, v) := by
          simp only [Prod.mk.sizeOf_spec]
          omega
        omega
      cases v with
      | obj vfs =>
        have hszvfs : sizeOf vfs ≤ n := by
          simp only [List.cons.sizeOf_spec, Prod.mk.sizeOf_spec,
            JValue.obj.sizeOf_spec] at hsz
          omega
        have hnd := wfJ_obj vfs hw1
        have hinner : dmGo vfs vfs vfs = vfs :=
          ih vfs vfs vfs hszvfs
            (fun kv h =>
              ⟨mapGet_of_mem_nodup vfs hnd.1 kv h, mapGet_of_mem_nodup vfs hnd.1 kv h⟩)
            (wfFields_mem vfs hnd.2)
        rw [show dmGo tfs result ((k, JValue.obj vfs) :: rest) =
            dmGo tfs (mapSet result k (JValue.obj (dmGo vfs vfs vfs))) rest from by
          simp [dmGo, h1.1]]
        rw [hinner, mapSet_get_id _ _ _ h1.2]
        exact ih rest tfs result hszrest hrest_sub hrest_wf
      | null =>
        rw [show dmGo tfs result ((k, JValue.null) :: rest) =
            dmGo tfs (mapSet result k JValue.null) rest from by simp [dmGo]]
        rw [mapSet_get_id _ _ _ h1.2]
        exact ih rest tfs result hszrest hrest_sub hrest_wf
      | bool b =>
        rw [show dmGo tfs result ((k, JValue.bool b) :: rest) =
            dmGo tfs (mapSet result k (JValue.bool b)) rest from by simp [dmGo]]
        rw [mapSet_get_id _ _ _ h1.2]
        exact ih rest tfs result hszrest hrest_sub hrest_wf
      | num q =>
        rw [show dmGo tfs result ((k, JValue.num q) :: rest) =
            dmGo tfs (mapSet result k (JValue.num q)) rest from by simp [dmGo]]
        rw [mapSet_get_id _ _ _ h1.2]
        exact ih rest tfs result hszrest hrest_sub hrest_wf
      | str s =>
        rw [show dmGo tfs result ((k, JValue.str s) :: rest) =
            dmGo tfs (mapSet result k (JValue.str s)) rest from by simp [dmGo]]
        rw [mapSet_get_id _ _ _ h1.2]
        exact ih rest tfs result hszrest hrest_sub hrest_wf
      | arr xs =>
        rw [show dmGo tfs result ((k, JValue.arr xs) :: rest) =
            dmGo tfs (mapSet result k (JValue.arr xs)) rest from by simp [dmGo]]
        rw [mapSet_get_id _ _ _ h1.2]
        exact ih rest tfs result hszrest hrest_sub hrest_wf
      | nonfinite nf =>
        simp [wfJ] at hw1

/-- The `for…in` loop of `deepMerge` leaves `result` unchanged when every
source entry already agrees with both the original target and the
accumulating result — the heart of the round-trip property. -/
theorem dmGo_self (sfs tfs result : List (String × JValue))
    (hsub : ∀ kv ∈ sfs, mapGet tfs kv.1 = some kv.2 ∧ mapGet result kv.1 = some kv.2)
    (hwf : ∀ kv ∈ sfs, wfJ kv.2 = true) :
    dmGo tfs result sfs = result :=
  dmGo_self_aux (sizeOf sfs) sfs tfs result (le_refl _) hsub hwf

/-- `deepMerge` of a well-formed object configuration with itself is the
identity. -/
theorem deepMerge_self_obj (fs : List (String × JValue))
    (hwf : wfJ (JValue.obj fs) = true) :
    deepMerge (JValue.obj fs) (JValue.obj fs) = JValue.obj fs := by
  have h := wfJ_obj fs hwf
  unfold deepMerge
  simp only
  rw [dmGo_self fs fs fs
    (fun kv hm => ⟨mapGet_of_mem_nodup fs h.1 kv hm, mapGet_of_mem_nodup fs h.1 kv hm⟩)
    (wfFields_mem fs h.2)]

/-- Size-bounded strong induction: `JSON.parse ∘ JSON.stringify` is the
identity on every well-formed value, array element list and field list
(well-formed values hold no non-finite number, the only thing stringify
rewrites). -/
theorem jsp_id_aux (n : Nat) :
    (∀ v : JValue, sizeOf v < n → wfJ v = true → jsonStringifyParse v = v) ∧
    (∀ xs : List JValue, sizeOf xs < n → wfArr xs = true → jspArr xs = xs) ∧
    (∀ fs : List (String × JValue), sizeOf fs < n → wfFields fs = true →
      jspFields fs = fs) := by
  induction n with
  | zero =>
    exact ⟨fun v hsz _ => absurd hsz (Nat.not_lt_zero _),
      fun xs hsz _ => absurd hsz (Nat.not_lt_zero _),
      fun fs hsz _ => absurd hsz (Nat.not_lt_zero _)⟩
  | succ n ih =>
    obtain ⟨ihv, iha, ihf⟩ := ih
    refine ⟨?_, ?_, ?_⟩
    · intro v hsz hwf
      cases v with
      | null => rfl
      | bool b => rfl
      | num q => rfl
      | str s => rfl
      | nonfinite nf => simp [wfJ] at hwf
      | arr xs =>
        have hxs : sizeOf xs < n := by
          simp only [JValue.arr.sizeOf_spec] at hsz
          omega
        have hw : wfArr xs = true := by simpa [wfJ] using hwf
        show JValue.arr (jspArr xs) = JValue.arr xs
        rw [iha xs hxs hw]
      | obj fs =>
        have hfs : sizeOf fs < n := by
          simp only [JValue.obj.sizeOf_spec] at hsz
          omega
        have hw := (wfJ_obj fs hwf).2
        show JValue.obj (jspFields fs) = JValue.obj fs
        rw [ihf fs hfs hw]
    · intro xs hsz hwa
      cases xs with
      | nil => rfl
      | cons x rest =>
        simp only [List.cons.sizeOf_spec] at hsz
        simp only [wfArr, Bool.and_eq_true] at hwa
        show jsonStringifyParse x :: jspArr rest = x :: rest
        rw [ihv x (by omega) hwa.1, iha rest (by omega) hwa.2]
    · intro fs hsz hwf
      cases fs with
      | nil => rfl
      | cons kv rest =>
        obtain ⟨k, v⟩ := kv
        simp only [List.cons.sizeOf_spec, Prod.mk.sizeOf_spec] at hsz
        simp only [wfFields, Bool.and_eq_true] at hwf
        show (k, jsonStringifyParse v) :: jspFields rest = (k, v) :: rest
        rw [ihv v (by omega) hwf.1, ihf rest (by omega) hwf.2]

/-- Stringify-then-parse is the identity on every well-formed value. -/
theorem jsp_id (v : JValue) (hwf : wfJ v = true) : jsonStringifyParse v = v :=
  (jsp_id_aux (sizeOf v + 1)).1 v (Nat.lt_succ_self _) hwf

/-- A non-object source value is merged verbatim. -/
theorem dmVal_nonobj (t : List (String × JValue)) (k : String) (v : JValue)
    (hnobj : ∀ vfs, v ≠ JValue.obj vfs) : dmVal t k v = v := by
  cases v with
  | obj vfs => exact absurd rfl (hnobj vfs)
  | null => rfl
  | bool b => rfl
  | num q => rfl
  | str s => rfl
  | arr xs => rfl
  | nonfinite nf => rfl

/-- One loop iteration of `deepMerge`: the head source entry is written
into the result via `dmVal` and the loop continues on the tail. -/
theorem dmGo_cons (t r : List (String × JValue)) (k : String) (v : JValue)
    (rest : List (String × JValue)) :
    dmGo t r ((k, v) :: rest) = dmGo t (mapSet r k (dmVal t k v)) rest := by
  cases v <;> simp [dmGo, dmVal]

/-- When a key does not occur among the remaining source entries, the loop
leaves that key's binding in the accumulator untouched. -/
theorem dmGo_get_notin (t : List (String × JValue)) (k : String) :
    ∀ (sfs r : List (String × JValue)), k ∉ sfs.map Prod.fst →
    mapGet (dmGo t r sfs) k = mapGet r k := by
  intro sfs
  induction sfs with
  | nil => intro r _; simp [dmGo]
  | cons kv rest ih =>
    intro r hnk
    obtain ⟨k2, v2⟩ := kv
    simp only [List.map_cons, List.mem_cons, not_or] at hnk
    rw [dmGo_cons, ih _ hnk.2, mapGet_mapSet_ne _ _ hnk.1]

/-- After the `deepMerge` loop, a source entry holding a non-object value
ends up verbatim in the result (the source keys being pairwise
distinct). -/
theorem dmGo_get_nonobj (t : List (String × JValue)) (k : String) (v : JValue)
    (hnobj : ∀ vfs, v ≠ JValue.obj vfs) :
    ∀ (sfs r : List (String × JValue)), (k, v) ∈ sfs →
    keyNodup (sfs.map Prod.fst) = true →
    mapGet (dmGo t r sfs) k = some v := by
  intro sfs
  induction sfs with
  | nil => intro r hmem _; cases hmem
  | cons kv rest ih =>
    intro r hmem hnd
    obtain ⟨k2, v2⟩ := kv
    simp only [List.map_cons, keyNodup, Bool.and_eq_true, Bool.not_eq_true'] at hnd
    rw [dmGo_cons]
    rcases List.mem_cons.mp hmem with h | h
    · injection h with h1 h2
      subst h1
      subst h2
      have hknot : k ∉ rest.map Prod.fst := by
        intro hm
        have h3 : (rest.map Prod.fst).contains k = true := List.elem_eq_true_of_mem hm
        rw [hnd.1] at h3
        cases h3
      rw [dmVal_nonobj t k v hnobj, dmGo_get_notin t k rest _ hknot,
        mapGet_mapSet_self]
    · exact ih (mapSet r k2 (dmVal t k2 v2)) h hnd.2

end Config

namespace Config

/-- C8 (amended): on every reachable configuration that is an object with
distinct keys at every level AND whose stored numbers are all finite,
`import(export())` is the identity: stringification touches nothing, the
exported JSON parses back to the same value, and the deep merge of the
configuration with itself changes nothing.  `import` of a string that is
not valid JSON throws `'Invalid configuration JSON'` before any update,
leaving the configuration untouched.  The finiteness proviso is forced by
the code: `JSON.stringify` renders a stored `NaN` or `Infinity` as `null`,
and such states are reachable (see `C8_counterexample`). -/
theorem C8_config_roundtrip (c : JValue) (hwf : wfJ c = true)
    (hobj : ∃ fs, c = JValue.obj fs) :
    importConfig c (some (exportConfig c)) = Except.ok c ∧
    importConfig c none = Except.error "Invalid configuration JSON" := by
  obtain ⟨fs, rfl⟩ := hobj
  refine ⟨?_, rfl⟩
  show Except.ok (deepMerge (JValue.obj fs) (exportConfig (JValue.obj fs))) = _
  rw [show exportConfig (JValue.obj fs) = JValue.obj fs from jsp_id _ hwf]
  rw [deepMerge_self_obj fs hwf]

/-- Witness for C8: the default configuration round-trips. -/
theorem C8_witness :
    importConfig defaultConfig (some (exportConfig defaultConfig)) =
      Except.ok defaultConfig ∧
    importConfig defaultConfig none = Except.error "Invalid configuration JSON" :=
  C8_config_roundtrip defaultConfig (by decide) ⟨_, rfl⟩

/-- Counterexample to the unrestricted C8: the state reached by
`new ConfigManager()` under a malformed `MIN_CONFIDENCE` environment
variable — `loadFromEnvironment` stores `parseFloat('…') = NaN` — does NOT
round-trip: `JSON.stringify` serializes the `NaN` as `null`, so
`import(export())` replaces `minConfidence` with `null` instead of
restoring the pre-export state. -/
theorem C8_counterexample :
    importConfig nanEnvConfig (some (exportConfig nanEnvConfig)) ≠
      Except.ok nanEnvConfig := by
  intro heq
  have hfields : dmGo nanEnvFields nanEnvFields (jspFields nanEnvFields) =
      nanEnvFields :=
    JValue.obj.inj (Except.ok.inj heq)
  have hmem : ("minConfidence", JValue.null) ∈ jspFields nanEnvFields := by
    simp [nanEnvFields, jspFields, jsonStringifyParse]
  have hnd : keyNodup ((jspFields nanEnvFields).map Prod.fst) = true := by decide
  have hget : DeviceCtl.mapGet
      (dmGo nanEnvFields nanEnvFields (jspFields nanEnvFields))
      "minConfidence" = some JValue.null :=
    dmGo_get_nonobj nanEnvFields "minConfidence" JValue.null
      (fun vfs h => JValue.noConfusion h) (jspFields nanEnvFields)
      nanEnvFields hmem hnd
  rw [hfields] at hget
  have hnan : DeviceCtl.mapGet nanEnvFields "minConfidence" =
      some (JValue.nonfinite NonFinite.nan) := rfl
  rw [hnan] at hget
  exact JValue.noConfusion (Option.some.inj hget)

end Config

namespace Events

/-- Running the instrumented listeners appends each index exactly once, in
list order, whether or not the listener throws. -/
theorem runCallbacks_tracers (pairs : List (Nat × Bool)) (t : List Nat) :
    runCallbacks (pairs.map (fun p => tracer p.1 p.2)) t = t ++ pairs.map Prod.fst := by
  induction pairs generalizing t with
  | nil => simp [runCallbacks]
  | cons p rest ih =>
    cases hf : p.2 with
    | true =>
      simp only [List.map_cons, runCallbacks, tracer, hf, if_true, ih,
        List.map_cons, List.append_assoc, List.singleton_append]
    | false =>
      simp only [List.map_cons, runCallbacks, tracer, hf, Bool.false_eq_true, if_false,
        ih, List.map_cons, List.append_assoc, List.singleton_append]

/-- Registering on one event accumulates the callbacks in order. -/
theorem registerTracers_events (pairs : List (Nat × Bool)) (event : String)
    (cbs : List (Callback (List Nat))) :
    (pairs.foldl (fun em p => onEvent em event (tracer p.1 p.2))
        (⟨[(event, cbs)]⟩ : EventEmitter (List Nat))).events =
      [(event, cbs ++ pairs.map (fun p => tracer p.1 p.2))] := by
  induction pairs generalizing cbs with
  | nil => simp
  | cons p rest ih =>
    have hon : onEvent (⟨[(event, cbs)]⟩ : EventEmitter (List Nat)) event
        (tracer p.1 p.2) = ⟨[(event, cbs ++ [tracer p.1 p.2])]⟩ := by
      unfold onEvent
      simp [DeviceCtl.mapGet, DeviceCtl.mapSet]
    rw [List.foldl_cons, hon, ih]
    simp

/-- C9: for any event name and any number of listeners registered in order
via `on` — any subset of which throw when invoked — `emit` invokes every
listener exactly once, in registration order, never propagating a
listener's exception: the trace of one `emit` over `n` listeners is
`[0, 1, …, n-1]` regardless of the throw pattern, and `emit` is total. -/
theorem C9_emit_delivery (flags : List Bool) (event : String) :
    emit (registerTracers flags event) event [] = List.range flags.length := by
  have hlen : (List.range flags.length).length = flags.length := List.length_range _
  have hmapfst : ((List.range flags.length).zip flags).map Prod.fst
      = List.range flags.length :=
    List.map_fst_zip _ _ (by rw [hlen])
  unfold registerTracers
  cases hz : (List.range flags.length).zip flags with
  | nil =>
    have h0 : flags.length = 0 := by
      have hl := congrArg List.length hz
      simpa [List.length_zip, hlen] using hl
    simp [List.foldl_nil, emit, emptyEmitter, DeviceCtl.mapGet, h0]
  | cons p ps =>
    have hone : onEvent (emptyEmitter : EventEmitter (List Nat)) event (tracer p.1 p.2)
        = ⟨[(event, [tracer p.1 p.2])]⟩ := by
      unfold onEvent emptyEmitter
      simp [DeviceCtl.mapGet, DeviceCtl.mapSet]
    rw [List.foldl_cons, hone]
    have hev : (List.foldl (fun em p => onEvent em event (tracer p.1 p.2))
        (⟨[(event, [tracer p.1 p.2])]⟩ : EventEmitter (List Nat)) ps).events
        = [(event, [tracer p.1 p.2] ++ ps.map (fun q => tracer q.1 q.2))] :=
      registerTracers_events ps event [tracer p.1 p.2]
    unfold emit
    rw [hev]
    simp only [DeviceCtl.mapGet, if_true, List.singleton_append]
    rw [show (tracer p.1 p.2 :: ps.map (fun q => tracer q.1 q.2))
        = ((p :: ps).map (fun q => tracer q.1 q.2)) from by simp,
      runCallbacks_tracers]
    rw [show (p :: ps).map Prod.fst = ((List.range flags.length).zip flags).map Prod.fst
        from by rw [hz]]
    rw [hmapfst]
    simp

end Events

namespace LangProc

open JsStr

theorem pattern_fold_none (cmd : List Nat) (nm : String) :
    ∀ ps : List Rx, (∀ p ∈ ps, jsMatch p cmd = none) →
    ∀ best : IntentRes,
    ps.foldl
      (fun best pattern =>
        match jsMatch pattern cmd with
        | some il =>
          let confidence := calculatePatternConfidence il.1 il.2 cmd
          if best.confidence.blt confidence then
            { name := nm, confidence := confidence }
          else best
        | none => best)
      best = best := by
  intro ps
  induction ps with
  | nil =>
    intro h best
    rfl
  | cons p rest ih =>
    intro h best
    rw [List.foldl_cons]
    have hp : jsMatch p cmd = none := h p (List.mem_cons_self _ _)
    simp only [hp]
    exact ih (fun q hq => h q (List.mem_cons_of_mem _ hq)) best

theorem intent_fold_none (cmd : List Nat) :
    ∀ table : List (String × List Rx),
    (∀ ip ∈ table, ∀ p ∈ ip.2, jsMatch p cmd = none) →
    ∀ best : IntentRes,
    table.foldl
      (fun best ip =>
        ip.2.foldl
          (fun best pattern =>
            match jsMatch pattern cmd with
            | some il =>
              let confidence := calculatePatternConfidence il.1 il.2 cmd
              if best.confidence.blt confidence then
                { name := ip.1, confidence := confidence }
              else best
            | none => best)
          best)
      best = best := by
  intro table
  induction table with
  | nil =>
    intro h best
    rfl
  | cons ip rest ih =>
    intro h best
    rw [List.foldl_cons]
    have hstep : ip.2.foldl
        (fun best pattern =>
          match jsMatch pattern cmd with
          | some il =>
            let confidence := calculatePatternConfidence il.1 il.2 cmd
            if best.confidence.blt confidence then
              { name := ip.1, confidence := confidence }
            else best
          | none => best)
        best = best :=
      pattern_fold_none cmd ip.1 ip.2 (h ip (List.mem_cons_self _ _)) best
    rw [hstep]
    exact ih (fun q hq => h q (List.mem_cons_of_mem _ hq)) best

/-- When no intent pattern matches the normalized command, `extractIntent`
returns its initial best: `unknown` at confidence 0. -/
theorem extractIntent_no_match (cmd : List Nat)
    (h : ∀ ip ∈ intentPatterns, ∀ p ∈ ip.2, jsMatch p cmd = none) :
    extractIntent cmd = ⟨"unknown", JsRat.ofNat 0⟩ := by
  unfold extractIntent
  exact intent_fold_none cmd intentPatterns h _

/-- C6: `processCommand("xyz random command")` yields intent `unknown`,
action `unknown`, confidence 0; and in general, whenever no intent pattern
matches the normalized text, the result is intent `unknown` at confidence 0
with action `unknown`. -/
theorem C6_unknown_intent :
    ((processCommand (chars "xyz random command")).intent = "unknown" ∧
      (processCommand (chars "xyz random command")).action = "unknown" ∧
      (processCommand (chars "xyz random command")).confidence = JsRat.ofNat 0) ∧
    ∀ cmd : List Nat,
      (∀ ip ∈ intentPatterns, ∀ p ∈ ip.2, jsMatch p (trimL (lowerL cmd)) = none) →
      (processCommand cmd).intent = "unknown" ∧
      (processCommand cmd).action = "unknown" ∧
      (processCommand cmd).confidence = JsRat.ofNat 0 := by
  refine ⟨⟨by decide, by decide, by decide⟩, ?_⟩
  intro cmd h
  have hint := extractIntent_no_match _ h
  unfold processCommand
  simp [hint, determineAction]

/-- Witness for C6's general part, discharged at the concrete input. -/
theorem C6_witness :
    (processCommand (chars "xyz random command")).intent = "unknown" ∧
    (processCommand (chars "xyz random command")).action = "unknown" ∧
    (processCommand (chars "xyz random command")).confidence = JsRat.ofNat 0 :=
  C6_unknown_intent.2 (chars "xyz random command") (by decide)

/-- C7: the confidence of `processCommand("turn on lights")` — a full-cover
match anchored at position 0: (14/14)·0.8 + 0.1 = 0.9 — strictly exceeds
that of `processCommand("maybe turn on lights please")` — a 21-of-27-column
match preceded by a space: (21/27)·0.8 + 0.1 = 13/18 ≈ 0.72. -/
theorem C7_confidence_ordering :
    (processCommand (chars "maybe turn on lights please")).confidence.toRat <
      (processCommand (chars "turn on lights")).confidence.toRat ∧
    (processCommand (chars "turn on lights")).confidence.toRat = 9 / 10 ∧
    (processCommand (chars "maybe turn on lights please")).confidence.toRat = 13 / 18 := by
  have h1 : (processCommand (chars "turn on lights")).confidence = ⟨630, 700⟩ := by
    decide
  have h2 : (processCommand (chars "maybe turn on lights please")).confidence
      = ⟨975, 1350⟩ := by
    decide
  rw [h1, h2]
  norm_num [JsRat.toRat]

/-- C5 (evaluation at the failing input): on the exact string
`"turn on the living room lights"` the code yields intent `device_control`
and action `turn_on` with a room entity `living_room` — but extracts NO
device entity at all: the device pattern `\b(light|lamp|…)\b` cannot match
the plural "lights" (no word boundary between "light" and "s"), so the
claimed device entity containing "light" does not exist.  The repository's
own test (`tests/core/languageProcessing.test.ts`) asserts that entity, so
the code contradicts its own test suite. -/
theorem C5_plural_device_entity_missing :
    (processCommand (chars "turn on the living room lights")).intent = "device_control" ∧
    (processCommand (chars "turn on the living room lights")).action = "turn_on" ∧
    ((processCommand (chars "turn on the living room lights")).entities.filter
        (fun e => e.type == "room")).map (fun e => e.value) = [chars "living_room"] ∧
    (processCommand (chars "turn on the living room lights")).entities.filter
        (fun e => e.type == "device") = [] := by
  exact ⟨by decide, by decide, by decide, by decide⟩

end LangProc
